import Mathlib

/-!
Verification development for the Monthly Ledger Aggregator
(`server/storage.ts`, class `MemStorage`).

The storage layer is embedded shallowly:

* JavaScript `Map` collections (`monthlyData`, `monthlyHistory`,
  `transactions`) become Lean lists in insertion order; `Map.set` on a
  fresh key appends, `Map.set` on an existing key replaces in place,
  `Map.delete` removes by key.  `generateId` is modelled by a fresh-id
  counter `nextId` in the state.
* monetary values (`decimal`-as-string columns `gastos`, `receita`,
  `amount`) are modelled by their exact numeric value in `ℚ`.
* JavaScript number arithmetic (`Number(t.amount)`, `+`, `toFixed(2)`)
  is binary64 floating point.  It is modelled exactly over `ℚ`:
  `roundF` rounds a rational to the nearest binary64-representable
  value (53-bit mantissa, round to nearest, ties to even; the exponent
  is unbounded, which is faithful for all magnitudes appearing here),
  `fadd` is IEEE addition, and `toFixed2val` is the value of
  ECMAScript `toFixed(2)` (nearest multiple of 1/100, ties away from
  zero, per the `toFixed` specification "pick the larger n").
* wall-clock month/year (`new Date()` / `getMonth` / `getFullYear`) is
  a `Ym` value passed to each operation, and `occurredAt` timestamps
  are kept at month/year granularity, which is the granularity every
  claim and every filter in the source uses.
* `Array.prototype.sort` with a numeric comparator is a stable sort;
  it is modelled by Mathlib's stable `List.insertionSort` with the
  corresponding total preorder.
* `updateTransaction` / `deleteTransaction` throw before mutating on a
  missing or foreign id; they are modelled as returning an `Except`
  together with the (unchanged, in the error case) state.
-/

/-- Round a rational to the nearest integer, ties to even.  This is the
final mantissa rounding step of IEEE-754 round-to-nearest. -/
def rne (x : ℚ) : ℤ :=
  let f := ⌊x⌋
  if x - f < 1/2 then f
  else if (1:ℚ)/2 < x - f then f + 1
  else if f % 2 = 0 then f else f + 1

/-- Scale a positive rational by powers of two into the binade
`[2^52, 2^53)`, tracking the exponent.  Fuel-driven so that the kernel
can evaluate it; 1200 steps cover every magnitude used anywhere in this
development.  The literals are `2^52` and `2^53`. -/
def toRange (m : ℚ) (k : ℤ) : ℕ → ℚ × ℤ
  | 0 => (m, k)
  | fuel+1 =>
    if m < 4503599627370496 then toRange (2*m) (k-1) fuel
    else if 9007199254740992 ≤ m then toRange (m/2) (k+1) fuel
    else (m, k)

/-- `2^k` for an integer `k`, as an executable rational. -/
def pow2z : ℤ → ℚ
  | .ofNat n => 2 ^ n
  | .negSucc n => 1 / 2 ^ (n+1)

/-- The binary64 value nearest to a rational: JavaScript
`Number(decimalString)` and the result of every IEEE arithmetic
operation on exact operands. -/
def roundF (q : ℚ) : ℚ :=
  if q < 0 then - (let p := toRange (-q) 0 1200; (rne p.1 : ℚ) * pow2z p.2)
  else if q = 0 then 0
  else (let p := toRange q 0 1200; (rne p.1 : ℚ) * pow2z p.2)

/-- IEEE-754 binary64 addition: the exact sum, rounded. -/
def fadd (x y : ℚ) : ℚ := roundF (x + y)

/-- `list.reduce((sum, a) => sum + Number(a), 0)` over amounts: each
amount is converted to a double, then accumulated with double
additions. -/
def fsum (l : List ℚ) : ℚ := l.foldl (fun sum a => fadd sum (roundF a)) 0

/-- The numeric value of ECMAScript `x.toFixed(2)`: the multiple of
1/100 nearest to `x`, ties resolved by "pick the larger n" (for the
negative sign the spec recurses on `-x`). -/
def toFixed2val (x : ℚ) : ℚ :=
  if x < 0 then -((⌊100 * (-x) + 1/2⌋ : ℚ) / 100)
  else (⌊100 * x + 1/2⌋ : ℚ) / 100

/-- The three fixed categories (`plr_nacional`, `plr_internacional`,
`marca_roupas`). -/
inductive Cat where
  | plr_nacional
  | plr_internacional
  | marca_roupas
deriving DecidableEq, Repr

/-- Transaction kind: `'expense' | 'gain'`. -/
inductive Kind where
  | expense
  | gain
deriving DecidableEq, Repr

/-- A month/year pair, the granularity at which the source reads the
wall clock and filters `occurredAt`. -/
structure Ym where
  month : ℕ
  year : ℕ
deriving DecidableEq, Repr

/-- A `monthly_data` row (live totals): `gastos` = total expenses,
`receita` = total gains, both decimal strings modelled by value. -/
structure MonthlyData where
  id : ℕ
  userId : ℕ
  category : Cat
  month : ℕ
  year : ℕ
  gastos : ℚ
  receita : ℚ
deriving DecidableEq, Repr

/-- A `monthly_history` row: one archived month with per-category
expense/gain pairs. -/
structure MonthlyHistory where
  id : ℕ
  userId : ℕ
  month : ℕ
  year : ℕ
  plrNacionalGastos : ℚ
  plrNacionalReceita : ℚ
  plrInternacionalGastos : ℚ
  plrInternacionalReceita : ℚ
  marcaRoupasGastos : ℚ
  marcaRoupasReceita : ℚ
deriving DecidableEq, Repr

/-- A `transactions` row. -/
structure Transaction where
  id : ℕ
  userId : ℕ
  category : Cat
  type : Kind
  description : String
  amount : ℚ
  occurredAt : Ym
deriving DecidableEq, Repr

/-- `InsertTransaction`: the validated creation payload
(`occurredAt` optional, defaulted to `new Date()`). -/
structure InsertTransaction where
  category : Cat
  type : Kind
  description : String
  amount : ℚ
  occurredAt : Option Ym
deriving DecidableEq, Repr

/-- `Partial<InsertTransaction>`: the patch spread over the existing
transaction by `{...existing, ...transaction}`. -/
structure TxPatch where
  category : Option Cat := none
  type : Option Kind := none
  description : Option String := none
  amount : Option ℚ := none
  occurredAt : Option Ym := none
deriving DecidableEq, Repr

/-- `UpdateMonthlyData`: the payload of `updateMonthlyData`. -/
structure UpdateMonthlyData where
  category : Cat
  gastos : ℚ
  receita : ℚ
deriving DecidableEq, Repr

/-- The `MemStorage` state: the three collections in `Map` insertion
order plus the fresh-id counter standing in for `generateId`. -/
structure State where
  monthlyData : List MonthlyData
  monthlyHistory : List MonthlyHistory
  transactions : List Transaction
  nextId : ℕ
deriving DecidableEq, Repr

/-- A freshly constructed `MemStorage`. -/
def initState : State := ⟨[], [], [], 0⟩

/-- The fixed category order used by the sort in
`getCurrentMonthData`. -/
def catOrder : Cat → ℕ
  | .plr_nacional => 0
  | .plr_internacional => 1
  | .marca_roupas => 2

/-- The comparator `order[a.category] - order[b.category]` as a total
preorder: `a` may precede `b`. -/
def catLe (a b : MonthlyData) : Prop := catOrder a.category ≤ catOrder b.category

instance : DecidableRel catLe := fun a b => by unfold catLe; infer_instance

/-- The history comparator `(a, b) => b.year - a.year || b.month -
a.month` as a total preorder: `a` may precede `b` (descending by
year, then month). -/
def histLe (a b : MonthlyHistory) : Prop :=
  b.year < a.year ∨ (b.year = a.year ∧ b.month ≤ a.month)

instance : DecidableRel histLe := fun a b => by unfold histLe; infer_instance

/-- The rows of `monthlyData` for one owner and the current month, in
`Map` insertion order (the filter at the top of
`getCurrentMonthData`). -/
def currentRows (s : State) (u : ℕ) (now : Ym) : List MonthlyData :=
  s.monthlyData.filter fun d =>
    decide (d.userId = u ∧ d.month = now.month ∧ d.year = now.year)

/-- The `find` used by `updateMonthlyData`: the row for
`(owner, category, current month, current year)`. -/
def rowFor (s : State) (u : ℕ) (c : Cat) (now : Ym) : Option MonthlyData :=
  s.monthlyData.find? fun d =>
    decide (d.userId = u ∧ d.category = c ∧ d.month = now.month ∧ d.year = now.year)

/-- The loop body of `getCurrentMonthData`: for each category take the
row found in the pre-computed `existingData`, otherwise create, persist
and return a fresh zero row. -/
def gcmLoop (existingData : List MonthlyData) (u : ℕ) (now : Ym) :
    List Cat → State → List MonthlyData × State
  | [], s => ([], s)
  | c :: cs, s =>
    match existingData.find? (fun d => decide (d.category = c)) with
    | some d =>
      let r := gcmLoop existingData u now cs s
      (d :: r.1, r.2)
    | none =>
      let nd : MonthlyData := ⟨s.nextId, u, c, now.month, now.year, 0, 0⟩
      let s1 : State := { s with monthlyData := s.monthlyData ++ [nd], nextId := s.nextId + 1 }
      let r := gcmLoop existingData u now cs s1
      (nd :: r.1, r.2)

/-- `getCurrentMonthData`: if exactly 3 rows exist return them sorted
by the fixed category order, otherwise lazily create the missing
categories with zero totals. -/
def getCurrentMonthData (s : State) (u : ℕ) (now : Ym) : List MonthlyData × State :=
  let existingData := currentRows s u now
  if existingData.length = 3 then
    (List.insertionSort catLe existingData, s)
  else
    gcmLoop existingData u now [Cat.plr_nacional, Cat.plr_internacional, Cat.marca_roupas] s

/-- `updateMonthlyData`: overwrite the row for
`(owner, category, current month/year)` in place, or create it. -/
def updateMonthlyData (s : State) (u : ℕ) (upd : UpdateMonthlyData) (now : Ym) :
    MonthlyData × State :=
  match rowFor s u upd.category now with
  | some existing =>
    let updated : MonthlyData := { existing with gastos := upd.gastos, receita := upd.receita }
    (updated,
      { s with monthlyData := s.monthlyData.map fun d => if d.id = existing.id then updated else d })
  | none =>
    let nd : MonthlyData := ⟨s.nextId, u, upd.category, now.month, now.year, upd.gastos, upd.receita⟩
    (nd, { s with monthlyData := s.monthlyData ++ [nd], nextId := s.nextId + 1 })

/-- `closeMonth`: snapshot the current totals (read via
`getCurrentMonthData`, so missing rows are first created as zeros) into
one immutable history row, then delete the rows that were read. -/
def closeMonth (s : State) (u : ℕ) (now : Ym) : State :=
  let r := getCurrentMonthData s u now
  let currentData := r.1
  let s1 := r.2
  let pn := currentData.find? fun d => decide (d.category = Cat.plr_nacional)
  let pint := currentData.find? fun d => decide (d.category = Cat.plr_internacional)
  let mr := currentData.find? fun d => decide (d.category = Cat.marca_roupas)
  let h : MonthlyHistory :=
    ⟨s1.nextId, u, now.month, now.year,
      (pn.map MonthlyData.gastos).getD 0, (pn.map MonthlyData.receita).getD 0,
      (pint.map MonthlyData.gastos).getD 0, (pint.map MonthlyData.receita).getD 0,
      (mr.map MonthlyData.gastos).getD 0, (mr.map MonthlyData.receita).getD 0⟩
  let s2 : State :=
    { s1 with monthlyHistory := s1.monthlyHistory ++ [h], nextId := s1.nextId + 1 }
  { s2 with
    monthlyData := currentData.foldl (fun md d => md.filter fun x => decide (¬ x.id = d.id)) s2.monthlyData }

/-- `getMonthlyHistory(userId, limit = 12)`: the owner's history rows,
stably sorted descending by `(year, month)`, truncated to `limit`. -/
def getMonthlyHistory (s : State) (u : ℕ) (limit : ℕ) : List MonthlyHistory :=
  (List.insertionSort histLe (s.monthlyHistory.filter fun h => decide (h.userId = u))).take limit

/-- `getMonthlyHistory` with the default `limit = 12`. -/
def getMonthlyHistoryD (s : State) (u : ℕ) : List MonthlyHistory :=
  getMonthlyHistory s u 12

/-- The transactions of one owner and category dated in the current
month (the filter inside `recalculateMonthlyData`). -/
def monthTxs (s : State) (u : ℕ) (c : Cat) (now : Ym) : List Transaction :=
  s.transactions.filter fun t =>
    decide (t.userId = u ∧ t.category = c ∧
      t.occurredAt.month = now.month ∧ t.occurredAt.year = now.year)

/-- `recalculateMonthlyData`: sum the category's current-month amounts
by kind in double arithmetic, format with `toFixed(2)`, and write the
totals row through `updateMonthlyData`. -/
def recalculateMonthlyData (s : State) (u : ℕ) (c : Cat) (now : Ym) : State :=
  let categoryTransactions := monthTxs s u c now
  let totalExpenses :=
    fsum ((categoryTransactions.filter fun t => decide (t.type = Kind.expense)).map Transaction.amount)
  let totalGains :=
    fsum ((categoryTransactions.filter fun t => decide (t.type = Kind.gain)).map Transaction.amount)
  (updateMonthlyData s u ⟨c, toFixed2val totalExpenses, toFixed2val totalGains⟩ now).2

/-- `createTransaction`: persist the new transaction (id from
`generateId`, `occurredAt` defaulted to now), then recompute its
category. -/
def createTransaction (s : State) (u : ℕ) (tx : InsertTransaction) (now : Ym) :
    Transaction × State :=
  let t : Transaction :=
    ⟨s.nextId, u, tx.category, tx.type, tx.description, tx.amount, tx.occurredAt.getD now⟩
  let s1 : State := { s with transactions := s.transactions ++ [t], nextId := s.nextId + 1 }
  (t, recalculateMonthlyData s1 u tx.category now)

/-- `updateTransaction`: throws `"Transaction not found"` before any
mutation when the id is missing or foreign; otherwise spreads the patch
over the stored row in place and recomputes the OLD category of the
transaction. -/
def updateTransaction (s : State) (u : ℕ) (id : ℕ) (patch : TxPatch) (now : Ym) :
    Except String Transaction × State :=
  match s.transactions.find? (fun t => decide (t.id = id)) with
  | none => (Except.error "Transaction not found", s)
  | some existing =>
    if existing.userId = u then
      let updated : Transaction :=
        { existing with
          category := patch.category.getD existing.category,
          type := patch.type.getD existing.type,
          description := patch.description.getD existing.description,
          amount := patch.amount.getD existing.amount,
          occurredAt := patch.occurredAt.getD existing.occurredAt }
      let s1 : State :=
        { s with transactions := s.transactions.map fun t => if t.id = id then updated else t }
      (Except.ok updated, recalculateMonthlyData s1 u existing.category now)
    else (Except.error "Transaction not found", s)

/-- `deleteTransaction`: throws `"Transaction not found"` before any
mutation when the id is missing or foreign; otherwise deletes the row
and recomputes its category. -/
def deleteTransaction (s : State) (u : ℕ) (id : ℕ) (now : Ym) :
    Except String Unit × State :=
  match s.transactions.find? (fun t => decide (t.id = id)) with
  | none => (Except.error "Transaction not found", s)
  | some existing =>
    if existing.userId = u then
      let s1 : State := { s with transactions := s.transactions.filter fun t => decide (¬ t.id = id) }
      (Except.ok (), recalculateMonthlyData s1 u existing.category now)
    else (Except.error "Transaction not found", s)

/-- One transaction-mutating storage call. -/
inductive TxOp where
  | create (tx : InsertTransaction)
  | update (id : ℕ) (patch : TxPatch)
  | delete (id : ℕ)

/-- Run one transaction operation (a failed update/delete throws before
mutating, so the state is unchanged). -/
def applyTxOp (s : State) (u : ℕ) (now : Ym) : TxOp → State
  | .create tx => (createTransaction s u tx now).2
  | .update id patch => (updateTransaction s u id patch now).2
  | .delete id => (deleteTransaction s u id now).2

/-- Run a sequence of transaction operations. -/
def runTxOps (s : State) (u : ℕ) (now : Ym) (ops : List TxOp) : State :=
  ops.foldl (fun s op => applyTxOp s u now op) s

/-- The category that a successful transaction operation hands to
`recalculateMonthlyData` (`none` if the operation fails): the payload
category for a create, the stored (pre-patch) category for an update or
delete. -/
def affectedCat (s : State) (u : ℕ) : TxOp → Option Cat
  | .create tx => some tx.category
  | .update id _ =>
    match s.transactions.find? (fun t => decide (t.id = id)) with
    | some t => if t.userId = u then some t.category else none
    | none => none
  | .delete id =>
    match s.transactions.find? (fun t => decide (t.id = id)) with
    | some t => if t.userId = u then some t.category else none
    | none => none

/-- The uniqueness key of a totals row: the schema constraint is one
row per `(owner, category, month, year)`. -/
def mdKey (d : MonthlyData) : ℕ × Cat × ℕ × ℕ := (d.userId, d.category, d.month, d.year)

/-- Well-formedness of a reachable `MemStorage` state: ids are unique
and below the fresh-id counter, and at most one totals row exists per
`(owner, category, month, year)` — the uniqueness constraint of the
schema, maintained by every operation. -/
def WF (s : State) : Prop :=
  (s.monthlyData.map MonthlyData.id).Nodup ∧
  (s.transactions.map Transaction.id).Nodup ∧
  (∀ d ∈ s.monthlyData, d.id < s.nextId) ∧
  (∀ t ∈ s.transactions, t.id < s.nextId) ∧
  s.monthlyData.Pairwise fun a b => mdKey a ≠ mdKey b

instance (s : State) : Decidable (WF s) := by unfold WF; infer_instance

/-! ### Facts about the binary64 model -/

theorem rne_err (x : ℚ) : |(rne x : ℚ) - x| ≤ 1/2 := by
  have h1 : (⌊x⌋ : ℚ) ≤ x := Int.floor_le x
  have h2 : x < ⌊x⌋ + 1 := Int.lt_floor_add_one x
  simp only [rne]
  split_ifs <;> rw [abs_le] <;> push_cast <;> constructor <;> linarith

theorem pow2z_eq (k : ℤ) : pow2z k = (2:ℚ) ^ k := by
  cases k with
  | ofNat n => simp [pow2z, Int.ofNat_eq_coe, zpow_natCast]
  | negSucc n => simp [pow2z, zpow_negSucc, one_div]

theorem pow2z_pos (k : ℤ) : 0 < pow2z k := by
  rw [pow2z_eq]; positivity

theorem toRange_invariant (fuel : ℕ) :
    ∀ m k, (toRange m k fuel).1 * pow2z (toRange m k fuel).2 = m * pow2z k := by
  induction fuel with
  | zero => intro m k; rfl
  | succ fuel ih =>
    intro m k
    unfold toRange
    split_ifs with h1 h2
    · rw [ih]
      simp only [pow2z_eq]
      rw [zpow_sub_one₀ (two_ne_zero)]
      ring
    · rw [ih]
      simp only [pow2z_eq]
      rw [zpow_add_one₀ (two_ne_zero)]
      ring
    · rfl

theorem toRange_lands (fuel : ℕ) :
    ∀ m k, 0 < m → m < 9007199254740992 → (4503599627370496 : ℚ) ≤ m * 2 ^ fuel →
      (4503599627370496 : ℚ) ≤ (toRange m k fuel).1 ∧
        (toRange m k fuel).1 < 9007199254740992 := by
  induction fuel with
  | zero =>
    intro m k h0 hlt hge
    simpa using ⟨by simpa using hge, hlt⟩
  | succ fuel ih =>
    intro m k h0 hlt hge
    unfold toRange
    split_ifs with h1 h2
    · exact ih (2*m) (k-1) (by linarith)
        (by linarith)
        (by rw [pow_succ] at hge; linarith)
    · exact absurd h2 (not_le.mpr hlt)
    · exact ⟨not_lt.mp h1, hlt⟩

theorem roundF_pos_form (q : ℚ) (h0 : 0 < q) :
    roundF q = (rne (toRange q 0 1200).1 : ℚ) * pow2z (toRange q 0 1200).2 := by
  unfold roundF
  rw [if_neg (not_lt.mpr h0.le), if_neg h0.ne']

theorem roundF_err (q : ℚ) (h0 : 0 < q) (hlt : q < 9007199254740992)
    (hge : (4503599627370496 : ℚ) ≤ q * 2 ^ 1200) :
    |roundF q - q| ≤ q / 9007199254740992 := by
  have hland := toRange_lands 1200 q 0 h0 hlt hge
  have hinv := toRange_invariant 1200 q 0
  rw [roundF_pos_form q h0]
  set M := (toRange q 0 1200).1 with hMdef
  set K := (toRange q 0 1200).2 with hKdef
  obtain ⟨hM1, hM2⟩ := hland
  have hP : 0 < pow2z K := pow2z_pos K
  have hp0 : pow2z 0 = 1 := by rw [pow2z_eq]; exact zpow_zero 2
  have hq : M * pow2z K = q := by rw [hinv, hp0, mul_one]
  have hM0 : 0 < M := by linarith
  rw [← hq]
  have : (rne M : ℚ) * pow2z K - M * pow2z K = ((rne M : ℚ) - M) * pow2z K := by ring
  rw [this, abs_mul, abs_of_pos hP]
  have h1 : |(rne M : ℚ) - M| * pow2z K ≤ (1/2) * pow2z K :=
    mul_le_mul_of_nonneg_right (rne_err M) hP.le
  have h3 : (1/2) * pow2z K ≤ (M * pow2z K) / 9007199254740992 := by
    have := mul_le_mul_of_nonneg_right hM1 hP.le
    linarith
  linarith

theorem roundF_zero : roundF 0 = 0 := by
  unfold roundF
  norm_num

theorem rne_intCast (n : ℤ) : rne (n : ℚ) = n := by
  unfold rne
  rw [Int.floor_intCast]
  norm_num

theorem toRange_eval (j : ℕ) :
    ∀ (m : ℚ) (k : ℤ) (fuel : ℕ), j ≤ fuel → 0 < m →
      m * 2 ^ j < 9007199254740992 → (4503599627370496 : ℚ) ≤ m * 2 ^ j →
      toRange m k fuel = (m * 2 ^ j, k - j) := by
  induction j with
  | zero =>
    intro m k fuel _ h0 hlt hge
    rw [pow_zero, mul_one] at hlt hge
    cases fuel with
    | zero => simp [toRange]
    | succ fuel =>
      unfold toRange
      rw [if_neg (not_lt.mpr hge), if_neg (not_le.mpr hlt)]
      simp
  | succ j ih =>
    intro m k fuel hfuel h0 hlt hge
    obtain ⟨fuel, rfl⟩ : ∃ f, fuel = f + 1 := ⟨fuel - 1, by omega⟩
    have hsmall : m < 4503599627370496 := by
      have h1 : (0:ℚ) < 2 ^ (j+1) := by positivity
      have h2 : (2:ℚ) ≤ 2 ^ (j+1) := by
        calc (2:ℚ) = 2 ^ 1 := (pow_one 2).symm
        _ ≤ 2 ^ (j+1) := pow_le_pow_right₀ (by norm_num) (by omega)
      nlinarith
    unfold toRange
    rw [if_pos hsmall]
    have hrec := ih (2*m) (k-1) fuel (by omega) (by linarith)
      (by rw [pow_succ] at hlt; linarith)
      (by rw [pow_succ] at hge; linarith)
    rw [hrec]
    simp only [Prod.mk.injEq]
    refine ⟨by rw [pow_succ]; ring, by push_cast; ring⟩

theorem roundF_eval (q : ℚ) (M : ℤ) (j : ℕ) (hj : j ≤ 1200) (h0 : 0 < q)
    (hM : q * 2 ^ j = (M : ℚ)) (hlo : (4503599627370496 : ℤ) ≤ M)
    (hhi : M < 9007199254740992) :
    roundF q = (M : ℚ) / 2 ^ j := by
  have hrange : toRange q 0 1200 = (q * 2 ^ j, 0 - (j:ℤ)) := by
    apply toRange_eval j q 0 1200 hj h0
    · rw [hM]; exact_mod_cast hhi
    · rw [hM]; exact_mod_cast hlo
  rw [roundF_pos_form q h0, hrange]
  simp only [hM, rne_intCast, pow2z_eq]
  rw [zero_sub, zpow_neg, zpow_natCast]
  rw [div_eq_mul_inv]

theorem roundF_form (q : ℚ) (j : ℕ) (hj : j ≤ 1200) (h0 : 0 < q)
    (hlo : (4503599627370496 : ℚ) ≤ q * 2 ^ j) (hhi : q * 2 ^ j < 9007199254740992) :
    roundF q = (rne (q * 2 ^ j) : ℚ) / 2 ^ j := by
  have hrange : toRange q 0 1200 = (q * 2 ^ j, 0 - (j:ℤ)) :=
    toRange_eval j q 0 1200 hj h0 hhi hlo
  rw [roundF_pos_form q h0, hrange]
  simp only [pow2z_eq]
  rw [zero_sub, zpow_neg, zpow_natCast, div_eq_mul_inv]

theorem roundF_fixed (q : ℚ) (M : ℤ) (j : ℕ) (hj : j ≤ 1200) (h0 : 0 < q)
    (hM : q * 2 ^ j = (M : ℚ)) (hlo : (4503599627370496 : ℤ) ≤ M)
    (hhi : M < 9007199254740992) :
    roundF q = q := by
  rw [roundF_form q j hj h0 (by rw [hM]; exact_mod_cast hlo)
    (by rw [hM]; exact_mod_cast hhi), hM, rne_intCast, ← hM]
  exact mul_div_cancel_right₀ q (pow_ne_zero j two_ne_zero)

theorem fsum_nil : fsum [] = 0 := rfl

theorem fsum_singleton (a : ℚ) : fsum [a] = roundF (roundF a) := by
  simp [fsum, fadd]

theorem toFixed2val_zero : toFixed2val 0 = 0 := by
  unfold toFixed2val
  rw [if_neg (by norm_num)]
  have h : ⌊(100:ℚ) * 0 + 1/2⌋ = 0 := by
    rw [Int.floor_eq_iff] <;> norm_num
  rw [h]
  norm_num

theorem toFixed2val_of_near (j : ℕ) (y : ℚ) (hy : 0 ≤ y)
    (h : |y - (j:ℚ)/100| < 1/200) : toFixed2val y = (j:ℚ)/100 := by
  unfold toFixed2val
  rw [if_neg (not_lt.mpr hy)]
  rw [abs_lt] at h
  have hfl : ⌊(100:ℚ) * y + 1/2⌋ = (j:ℤ) := by
    rw [Int.floor_eq_iff]
    push_cast
    constructor <;> linarith [h.1, h.2]
  rw [hfl]
  push_cast
  ring

theorem fsum_single_money (j : ℕ) (hj : j ≤ 10000000000) :
    toFixed2val (fsum [(j:ℚ)/100]) = (j:ℚ)/100 := by
  rcases Nat.eq_zero_or_pos j with rfl | hj1
  · rw [show ((0:ℕ):ℚ)/100 = 0 by norm_num, fsum_singleton, roundF_zero, roundF_zero,
      toFixed2val_zero]
  · have hja : (1:ℚ) ≤ (j:ℚ) := by exact_mod_cast hj1
    have hjb : (j:ℚ) ≤ 10000000000 := by exact_mod_cast hj
    set a := (j:ℚ)/100 with hadef
    have ha1 : 1/100 ≤ a := by rw [hadef]; linarith
    have ha2 : a ≤ 100000000 := by rw [hadef]; linarith
    have ha0 : 0 < a := by linarith
    have hbig : (4503599627370496:ℚ) ≤ a * 2 ^ 1200 := by
      have h1 : (4503599627370496:ℚ) ≤ (1/100) * 2 ^ 1200 := by norm_num
      have h2 : (1/100 : ℚ) * 2 ^ 1200 ≤ a * 2 ^ 1200 :=
        mul_le_mul_of_nonneg_right ha1 (by positivity)
      linarith
    have e1 := roundF_err a ha0 (by linarith) hbig
    rw [abs_le] at e1
    set r := roundF a with hrdef
    have hr1 : 1/200 ≤ r := by
      have : a / 9007199254740992 ≤ a / 2 := by
        apply div_le_div_of_nonneg_left ha0.le <;> norm_num
      linarith
    have hr0 : 0 < r := by linarith
    have hr2 : r ≤ 2 * a := by
      have h1 : a / 9007199254740992 ≤ a := by
        apply div_le_self ha0.le; norm_num
      linarith
    have hrbig : (4503599627370496:ℚ) ≤ r * 2 ^ 1200 := by
      have h1 : (4503599627370496:ℚ) ≤ (1/200) * 2 ^ 1200 := by norm_num
      have h2 : (1/200 : ℚ) * 2 ^ 1200 ≤ r * 2 ^ 1200 :=
        mul_le_mul_of_nonneg_right hr1 (by positivity)
      linarith
    have e2 := roundF_err r hr0 (by linarith) hrbig
    rw [abs_le] at e2
    rw [fsum_singleton, ← hrdef]
    apply toFixed2val_of_near j _ (by linarith)
    rw [abs_lt, ← hadef]
    constructor <;> linarith

theorem rne_val_0615 : rne ((123:ℚ)/200 * 2 ^ 53) = 5539427541665710 := by
  have hfl : ⌊(123:ℚ)/200 * 2 ^ 53⌋ = 5539427541665710 := by
    rw [Int.floor_eq_iff] <;> norm_num
  unfold rne
  rw [hfl]
  norm_num

theorem roundF_0615 : roundF ((123:ℚ)/200) = 5539427541665710 / 2 ^ 53 := by
  rw [roundF_form ((123:ℚ)/200) 53 (by norm_num) (by norm_num) (by norm_num) (by norm_num),
    rne_val_0615]
  norm_num

theorem fsum_0615 : fsum [(123:ℚ)/200] = 5539427541665710 / 2 ^ 53 := by
  rw [fsum_singleton, roundF_0615]
  exact roundF_fixed _ 5539427541665710 53 (by norm_num) (by norm_num) (by norm_num)
    (by norm_num) (by norm_num)

theorem recompute_0615 : toFixed2val (fsum [(123:ℚ)/200]) = 61/100 := by
  rw [fsum_0615]
  unfold toFixed2val
  rw [if_neg (by norm_num)]
  have hfl : ⌊(100:ℚ) * (5539427541665710 / 2 ^ 53) + 1/2⌋ = 61 := by
    rw [Int.floor_eq_iff] <;> norm_num
  rw [hfl]
  norm_num

theorem roundF_50 : roundF (50:ℚ) = 50 :=
  roundF_fixed 50 7036874417766400 47 (by norm_num) (by norm_num) (by norm_num)
    (by norm_num) (by norm_num)

theorem recompute_50 : toFixed2val (fsum [(50:ℚ)]) = 50 := by
  rw [fsum_singleton, roundF_50, roundF_50]
  unfold toFixed2val
  rw [if_neg (by norm_num)]
  have hfl : ⌊(100:ℚ) * 50 + 1/2⌋ = 5000 := by
    rw [Int.floor_eq_iff] <;> norm_num
  rw [hfl]
  norm_num

theorem recompute_nil : toFixed2val (fsum []) = 0 := by
  rw [fsum_nil, toFixed2val_zero]

theorem recompute_10 : toFixed2val (fsum [(10:ℚ)]) = 10 := by
  have h : roundF (10:ℚ) = 10 :=
    roundF_fixed 10 5629499534213120 49 (by norm_num) (by norm_num) (by norm_num)
      (by norm_num) (by norm_num)
  rw [fsum_singleton, h, h]
  unfold toFixed2val
  rw [if_neg (by norm_num)]
  have hfl : ⌊(100:ℚ) * 10 + 1/2⌋ = 1000 := by
    rw [Int.floor_eq_iff] <;> norm_num
  rw [hfl]
  norm_num

/-! ### Generic lookup facts -/

theorem find?_key_unique {α κ : Type} [DecidableEq κ] (key : α → κ) (k : κ)
    (l : List α) (hpw : l.Pairwise fun a b => key a ≠ key b) (p : α → Bool)
    (hp : ∀ a, p a = true ↔ key a = k) (d : α) :
    l.find? p = some d ↔ (d ∈ l ∧ key d = k) := by
  induction l with
  | nil => simp
  | cons x l ih =>
    rcases List.pairwise_cons.mp hpw with ⟨hx, hl⟩
    by_cases hpx : p x = true
    · rw [List.find?_cons_of_pos _ hpx]
      have hkx : key x = k := (hp x).mp hpx
      constructor
      · intro h
        injection h with h
        subst h
        exact ⟨List.mem_cons_self x l, hkx⟩
      · rintro ⟨hmem, hkd⟩
        rcases List.mem_cons.mp hmem with rfl | hmem
        · rfl
        · exact (hx d hmem (hkx.trans hkd.symm)).elim
    · rw [List.find?_cons_of_neg _ (by simpa using hpx)]
      rw [ih hl]
      constructor
      · rintro ⟨hm, hk⟩
        exact ⟨List.mem_cons_of_mem _ hm, hk⟩
      · rintro ⟨hm, hk⟩
        rcases List.mem_cons.mp hm with rfl | hm
        · exact absurd ((hp d).mpr hk) hpx
        · exact ⟨hm, hk⟩

theorem mdKey_pred (u : ℕ) (c : Cat) (now : Ym) (d : MonthlyData) :
    (decide (d.userId = u ∧ d.category = c ∧ d.month = now.month ∧ d.year = now.year) = true) ↔
      mdKey d = (u, c, now.month, now.year) := by
  simp [mdKey, Prod.ext_iff]

theorem rowFor_some_iff (s : State) (u : ℕ) (c : Cat) (now : Ym)
    (hpw : s.monthlyData.Pairwise fun a b => mdKey a ≠ mdKey b) (d : MonthlyData) :
    rowFor s u c now = some d ↔
      (d ∈ s.monthlyData ∧ mdKey d = (u, c, now.month, now.year)) :=
  find?_key_unique mdKey (u, c, now.month, now.year) s.monthlyData hpw _
    (fun a => mdKey_pred u c now a) d

theorem rowFor_none_iff (s : State) (u : ℕ) (c : Cat) (now : Ym) :
    rowFor s u c now = none ↔
      ∀ d ∈ s.monthlyData, mdKey d ≠ (u, c, now.month, now.year) := by
  unfold rowFor
  rw [List.find?_eq_none]
  constructor
  · intro h d hd
    intro hk
    exact h d hd ((mdKey_pred u c now d).mpr hk)
  · intro h d hd hk
    exact h d hd ((mdKey_pred u c now d).mp (by simpa using hk))

theorem ne_key_symm {α κ : Type} (key : α → κ) :
    Symmetric fun a b : α => key a ≠ key b :=
  fun _ _ h e => h e.symm

theorem key_ne_of_mem {l : List MonthlyData}
    (h : l.Pairwise fun a b => mdKey a ≠ mdKey b) :
    ∀ a ∈ l, ∀ b ∈ l, a ≠ b → mdKey a ≠ mdKey b := by
  intro a ha b hb hne
  exact List.Pairwise.forall (ne_key_symm mdKey) h ha hb hne

theorem eq_of_mdId_eq {l : List MonthlyData} (h : (l.map MonthlyData.id).Nodup) :
    ∀ a ∈ l, ∀ b ∈ l, a.id = b.id → a = b := by
  intro a ha b hb hid
  by_contra hne
  have hpw : l.Pairwise fun a b => a.id ≠ b.id := by
    rw [List.Nodup, List.pairwise_map] at h
    exact h
  exact List.Pairwise.forall (ne_key_symm MonthlyData.id) hpw ha hb hne hid

theorem eq_of_txId_eq {l : List Transaction} (h : (l.map Transaction.id).Nodup) :
    ∀ a ∈ l, ∀ b ∈ l, a.id = b.id → a = b := by
  intro a ha b hb hid
  by_contra hne
  have hpw : l.Pairwise fun a b => a.id ≠ b.id := by
    rw [List.Nodup, List.pairwise_map] at h
    exact h
  exact List.Pairwise.forall (ne_key_symm Transaction.id) hpw ha hb hne hid

theorem txFind_some_iff (l : List Transaction) (hnd : (l.map Transaction.id).Nodup)
    (i : ℕ) (t : Transaction) :
    l.find? (fun t => decide (t.id = i)) = some t ↔ (t ∈ l ∧ t.id = i) := by
  have hpw : l.Pairwise fun a b => a.id ≠ b.id := by
    rw [List.Nodup, List.pairwise_map] at hnd
    exact hnd
  exact find?_key_unique Transaction.id i l hpw _ (fun a => by simp) t

/-! ### Postconditions of the write path -/

theorem updateMonthlyData_spec (s : State) (u : ℕ) (upd : UpdateMonthlyData) (now : Ym)
    (hwf : WF s) :
    mdKey (updateMonthlyData s u upd now).1 = (u, upd.category, now.month, now.year) ∧
    (updateMonthlyData s u upd now).1.gastos = upd.gastos ∧
    (updateMonthlyData s u upd now).1.receita = upd.receita ∧
    (∀ x, x ∈ (updateMonthlyData s u upd now).2.monthlyData ↔
      (x = (updateMonthlyData s u upd now).1 ∨
        (x ∈ s.monthlyData ∧ mdKey x ≠ (u, upd.category, now.month, now.year)))) ∧
    (updateMonthlyData s u upd now).2.transactions = s.transactions ∧
    (updateMonthlyData s u upd now).2.monthlyHistory = s.monthlyHistory ∧
    s.nextId ≤ (updateMonthlyData s u upd now).2.nextId ∧
    WF (updateMonthlyData s u upd now).2 := by
  obtain ⟨hnd, hndt, hbd, hbt, hpw⟩ := hwf
  rcases hfind : rowFor s u upd.category now with _ | ex
  · have hall := (rowFor_none_iff s u upd.category now).mp hfind
    unfold updateMonthlyData
    simp only [hfind]
    refine ⟨by simp [mdKey], by trivial, by trivial, ?_, by trivial, by trivial, Nat.le_succ _, ?_, hndt, ?_, ?_, ?_⟩
    · intro x
      simp only [List.mem_append, List.mem_singleton]
      constructor
      · rintro (hx | rfl)
        · exact Or.inr ⟨hx, hall x hx⟩
        · exact Or.inl rfl
      · rintro (rfl | ⟨hx, _⟩)
        · exact Or.inr rfl
        · exact Or.inl hx
    · rw [List.map_append, List.nodup_append]
      refine ⟨hnd, List.nodup_singleton _, ?_⟩
      intro a ha hb
      simp only [List.map_cons, List.map_nil, List.mem_singleton] at hb
      subst hb
      obtain ⟨d, hd, hda⟩ := List.mem_map.mp ha
      exact absurd hda (Nat.ne_of_lt (hbd d hd))
    · intro d hd
      rcases List.mem_append.mp hd with hd | hd
      · exact Nat.lt_succ_of_lt (hbd d hd)
      · rw [List.mem_singleton] at hd
        subst hd
        exact Nat.lt_succ_self _
    · intro t ht
      exact Nat.lt_succ_of_lt (hbt t ht)
    · rw [List.pairwise_append]
      refine ⟨hpw, List.pairwise_singleton _ _, ?_⟩
      intro a ha b hb
      rw [List.mem_singleton] at hb
      subst hb
      have : mdKey a ≠ (u, upd.category, now.month, now.year) := hall a ha
      simpa [mdKey] using this
  · have hx := (rowFor_some_iff s u upd.category now hpw ex).mp hfind
    unfold updateMonthlyData
    simp only [hfind]
    have hkupd : mdKey { ex with gastos := upd.gastos, receita := upd.receita } = mdKey ex := by
      simp [mdKey]
    have hfid : ∀ d ∈ s.monthlyData,
        (if d.id = ex.id then { ex with gastos := upd.gastos, receita := upd.receita } else d).id
          = d.id := by
      intro d _
      by_cases hdid : d.id = ex.id
      · rw [if_pos hdid, hdid]
      · rw [if_neg hdid]
    have hmemiff : ∀ x, x ∈ (s.monthlyData.map fun d =>
        if d.id = ex.id then { ex with gastos := upd.gastos, receita := upd.receita } else d) ↔
        (x = { ex with gastos := upd.gastos, receita := upd.receita } ∨
          (x ∈ s.monthlyData ∧ mdKey x ≠ (u, upd.category, now.month, now.year))) := by
      intro x
      constructor
      · intro hmx
        obtain ⟨d, hd, hdx⟩ := List.mem_map.mp hmx
        by_cases hdid : d.id = ex.id
        · have hde : d = ex := eq_of_mdId_eq hnd d hd ex hx.1 hdid
          subst hde
          rw [if_pos hdid] at hdx
          exact Or.inl hdx.symm
        · rw [if_neg hdid] at hdx
          subst hdx
          refine Or.inr ⟨hd, ?_⟩
          intro hk
          have hne : d ≠ ex := fun e => hdid (by rw [e])
          exact key_ne_of_mem hpw d hd ex hx.1 hne (hk.trans hx.2.symm)
      · rintro (rfl | ⟨hxmem, hxkey⟩)
        · exact List.mem_map.mpr ⟨ex, hx.1, by rw [if_pos rfl]⟩
        · refine List.mem_map.mpr ⟨x, hxmem, ?_⟩
          rw [if_neg]
          intro hid
          exact hxkey (by rw [eq_of_mdId_eq hnd x hxmem ex hx.1 hid, hx.2])
    refine ⟨by rw [hkupd, hx.2], by trivial, by trivial, hmemiff, by trivial, by trivial, Nat.le_refl _, ?_, hndt, ?_, hbt, ?_⟩
    · rw [List.map_map]
      have : (s.monthlyData.map fun d =>
          MonthlyData.id (if d.id = ex.id then
            { ex with gastos := upd.gastos, receita := upd.receita } else d)) =
          s.monthlyData.map MonthlyData.id := List.map_congr_left hfid
      rw [Function.comp_def]
      rw [this]
      exact hnd
    · intro d hd
      obtain ⟨e, he, hde⟩ := List.mem_map.mp hd
      rw [← hde]
      rw [hfid e he]
      exact hbd e he
    · rw [List.pairwise_map]
      apply hpw.imp_of_mem
      intro a b ha hb hk
      have hka : mdKey (if a.id = ex.id then
          { ex with gastos := upd.gastos, receita := upd.receita } else a) = mdKey a := by
        by_cases haid : a.id = ex.id
        · rw [if_pos haid, hkupd, eq_of_mdId_eq hnd a ha ex hx.1 haid]
        · rw [if_neg haid]
      have hkb : mdKey (if b.id = ex.id then
          { ex with gastos := upd.gastos, receita := upd.receita } else b) = mdKey b := by
        by_cases hbid : b.id = ex.id
        · rw [if_pos hbid, hkupd, eq_of_mdId_eq hnd b hb ex hx.1 hbid]
        · rw [if_neg hbid]
      rw [hka, hkb]
      exact hk

theorem recalc_spec (s : State) (u : ℕ) (c : Cat) (now : Ym) (hwf : WF s) :
    WF (recalculateMonthlyData s u c now) ∧
    (recalculateMonthlyData s u c now).transactions = s.transactions ∧
    (recalculateMonthlyData s u c now).monthlyHistory = s.monthlyHistory ∧
    s.nextId ≤ (recalculateMonthlyData s u c now).nextId ∧
    ∃ row, rowFor (recalculateMonthlyData s u c now) u c now = some row ∧
      row.gastos = toFixed2val (fsum (((monthTxs s u c now).filter fun t =>
        decide (t.type = Kind.expense)).map Transaction.amount)) ∧
      row.receita = toFixed2val (fsum (((monthTxs s u c now).filter fun t =>
        decide (t.type = Kind.gain)).map Transaction.amount)) ∧
      ∀ x, x ∈ (recalculateMonthlyData s u c now).monthlyData ↔
        (x = row ∨ (x ∈ s.monthlyData ∧ mdKey x ≠ (u, c, now.month, now.year))) := by
  have hspec := updateMonthlyData_spec s u
    ⟨c, toFixed2val (fsum (((monthTxs s u c now).filter fun t =>
        decide (t.type = Kind.expense)).map Transaction.amount)),
      toFixed2val (fsum (((monthTxs s u c now).filter fun t =>
        decide (t.type = Kind.gain)).map Transaction.amount))⟩ now hwf
  obtain ⟨hkey, hg, hr, hmem, htx, hh, hn, hwf'⟩ := hspec
  have hform : recalculateMonthlyData s u c now = (updateMonthlyData s u
    ⟨c, toFixed2val (fsum (((monthTxs s u c now).filter fun t =>
        decide (t.type = Kind.expense)).map Transaction.amount)),
      toFixed2val (fsum (((monthTxs s u c now).filter fun t =>
        decide (t.type = Kind.gain)).map Transaction.amount))⟩ now).2 := rfl
  rw [hform]
  refine ⟨hwf', htx, hh, hn, (updateMonthlyData s u _ now).1, ?_, hg, hr, hmem⟩
  have hpw' := hwf'.2.2.2.2
  apply (rowFor_some_iff _ u c now hpw' _).mpr
  exact ⟨(hmem _).mpr (Or.inl rfl), hkey⟩

theorem createTransaction_newTx (s : State) (u : ℕ) (tx : InsertTransaction) (now : Ym) :
    (createTransaction s u tx now).1 =
      ⟨s.nextId, u, tx.category, tx.type, tx.description, tx.amount, tx.occurredAt.getD now⟩ := rfl

theorem create_mid_WF (s : State) (u : ℕ) (tx : InsertTransaction) (now : Ym) (hwf : WF s) :
    WF { s with
      transactions := s.transactions ++
        [⟨s.nextId, u, tx.category, tx.type, tx.description, tx.amount, tx.occurredAt.getD now⟩],
      nextId := s.nextId + 1 } := by
  obtain ⟨hnd, hndt, hbd, hbt, hpw⟩ := hwf
  refine ⟨hnd, ?_, ?_, ?_, hpw⟩
  · rw [List.map_append, List.nodup_append]
    refine ⟨hndt, List.nodup_singleton _, ?_⟩
    intro a ha hb
    simp only [List.map_cons, List.map_nil, List.mem_singleton] at hb
    subst hb
    obtain ⟨d, hd, hda⟩ := List.mem_map.mp ha
    exact absurd hda (Nat.ne_of_lt (hbt d hd))
  · intro d hd
    exact Nat.lt_succ_of_lt (hbd d hd)
  · intro t ht
    rcases List.mem_append.mp ht with ht | ht
    · exact Nat.lt_succ_of_lt (hbt t ht)
    · rw [List.mem_singleton] at ht
      subst ht
      exact Nat.lt_succ_self _

theorem create_spec (s : State) (u : ℕ) (tx : InsertTransaction) (now : Ym) (hwf : WF s) :
    WF (createTransaction s u tx now).2 ∧
    (createTransaction s u tx now).2.transactions =
      s.transactions ++ [(createTransaction s u tx now).1] ∧
    (createTransaction s u tx now).2.monthlyHistory = s.monthlyHistory ∧
    s.nextId < (createTransaction s u tx now).2.nextId ∧
    ∃ row, rowFor (createTransaction s u tx now).2 u tx.category now = some row ∧
      row.gastos = toFixed2val (fsum (((monthTxs (createTransaction s u tx now).2 u tx.category now).filter
        fun t => decide (t.type = Kind.expense)).map Transaction.amount)) ∧
      row.receita = toFixed2val (fsum (((monthTxs (createTransaction s u tx now).2 u tx.category now).filter
        fun t => decide (t.type = Kind.gain)).map Transaction.amount)) ∧
      ∀ x, x ∈ (createTransaction s u tx now).2.monthlyData ↔
        (x = row ∨ (x ∈ s.monthlyData ∧ mdKey x ≠ (u, tx.category, now.month, now.year))) := by
  have hwf1 := create_mid_WF s u tx now hwf
  set s1 : State := { s with
    transactions := s.transactions ++
      [⟨s.nextId, u, tx.category, tx.type, tx.description, tx.amount, tx.occurredAt.getD now⟩],
    nextId := s.nextId + 1 } with hs1
  have hform : (createTransaction s u tx now).2 = recalculateMonthlyData s1 u tx.category now := rfl
  obtain ⟨hwf', htx, hh, hn, row, hrow, hg, hr, hmem⟩ := recalc_spec s1 u tx.category now hwf1
  rw [hform]
  have htxs : (recalculateMonthlyData s1 u tx.category now).transactions =
      s.transactions ++ [(createTransaction s u tx now).1] := htx
  have hmts : monthTxs (recalculateMonthlyData s1 u tx.category now) u tx.category now =
      monthTxs s1 u tx.category now := by
    unfold monthTxs
    rw [htx]
  refine ⟨hwf', htxs, hh, ?_, row, hrow, ?_, ?_, hmem⟩
  · calc s.nextId < s.nextId + 1 := Nat.lt_succ_self _
    _ = s1.nextId := rfl
    _ ≤ _ := hn
  · rw [hmts]
    exact hg
  · rw [hmts]
    exact hr

/-- The result of spreading `Partial<InsertTransaction>` over a stored
transaction (`{...existing, ...transaction}`; `id` and `userId` are not
part of the payload). -/
def patchTx (ex : Transaction) (p : TxPatch) : Transaction :=
  { ex with
    category := p.category.getD ex.category,
    type := p.type.getD ex.type,
    description := p.description.getD ex.description,
    amount := p.amount.getD ex.amount,
    occurredAt := p.occurredAt.getD ex.occurredAt }

theorem update_spec (s : State) (u : ℕ) (i : ℕ) (p : TxPatch) (now : Ym) (hwf : WF s)
    (ex : Transaction) (hex : ex ∈ s.transactions) (hexid : ex.id = i) (hexu : ex.userId = u) :
    (updateTransaction s u i p now).1 = Except.ok (patchTx ex p) ∧
    WF (updateTransaction s u i p now).2 ∧
    (updateTransaction s u i p now).2.monthlyHistory = s.monthlyHistory ∧
    s.nextId ≤ (updateTransaction s u i p now).2.nextId ∧
    (∀ x, x ∈ (updateTransaction s u i p now).2.transactions ↔
      (x = patchTx ex p ∨ (x ∈ s.transactions ∧ x.id ≠ i))) ∧
    ∃ row, rowFor (updateTransaction s u i p now).2 u ex.category now = some row ∧
      row.gastos = toFixed2val (fsum (((monthTxs (updateTransaction s u i p now).2 u ex.category now).filter
        fun t => decide (t.type = Kind.expense)).map Transaction.amount)) ∧
      row.receita = toFixed2val (fsum (((monthTxs (updateTransaction s u i p now).2 u ex.category now).filter
        fun t => decide (t.type = Kind.gain)).map Transaction.amount)) ∧
      ∀ x, x ∈ (updateTransaction s u i p now).2.monthlyData ↔
        (x = row ∨ (x ∈ s.monthlyData ∧ mdKey x ≠ (u, ex.category, now.month, now.year))) := by
  obtain ⟨hnd, hndt, hbd, hbt, hpw⟩ := hwf
  have hfind : s.transactions.find? (fun t => decide (t.id = i)) = some ex :=
    (txFind_some_iff s.transactions hndt i ex).mpr ⟨hex, hexid⟩
  have hfid : ∀ t ∈ s.transactions,
      (if t.id = i then patchTx ex p else t).id = t.id := by
    intro t _
    by_cases htid : t.id = i
    · rw [if_pos htid, htid]
      exact hexid ▸ rfl
    · rw [if_neg htid]
  set s1 : State := { s with
    transactions := s.transactions.map fun t => if t.id = i then patchTx ex p else t } with hs1
  have hids : s1.transactions.map Transaction.id = s.transactions.map Transaction.id := by
    rw [hs1]
    simp only [List.map_map]
    rw [Function.comp_def]
    exact List.map_congr_left hfid
  have hwf1 : WF s1 := by
    refine ⟨hnd, ?_, hbd, ?_, hpw⟩
    · rw [hids]
      exact hndt
    · intro t ht
      obtain ⟨e, he, hde⟩ := List.mem_map.mp ht
      rw [← hde, hfid e he]
      exact hbt e he
  have hmemtx : ∀ x, x ∈ s1.transactions ↔
      (x = patchTx ex p ∨ (x ∈ s.transactions ∧ x.id ≠ i)) := by
    intro x
    rw [hs1]
    simp only [List.mem_map]
    constructor
    · rintro ⟨t, ht, htx⟩
      by_cases htid : t.id = i
      · rw [if_pos htid] at htx
        exact Or.inl htx.symm
      · rw [if_neg htid] at htx
        subst htx
        exact Or.inr ⟨ht, htid⟩
    · rintro (rfl | ⟨hxmem, hxid⟩)
      · exact ⟨ex, hex, by rw [if_pos hexid]⟩
      · exact ⟨x, hxmem, by rw [if_neg hxid]⟩
  have hform : updateTransaction s u i p now =
      (Except.ok (patchTx ex p), recalculateMonthlyData s1 u ex.category now) := by
    unfold updateTransaction
    simp only [hfind]
    rw [if_pos hexu]
    rfl
  obtain ⟨hwf', htx, hh, hn, row, hrow, hg, hr, hmem⟩ := recalc_spec s1 u ex.category now hwf1
  rw [hform]
  have hmts : monthTxs (recalculateMonthlyData s1 u ex.category now) u ex.category now =
      monthTxs s1 u ex.category now := by
    unfold monthTxs
    rw [htx]
  refine ⟨rfl, hwf', hh, hn, ?_, row, hrow, ?_, ?_, hmem⟩
  · intro x
    rw [htx]
    exact hmemtx x
  · rw [hmts]
    exact hg
  · rw [hmts]
    exact hr

theorem delete_spec (s : State) (u : ℕ) (i : ℕ) (now : Ym) (hwf : WF s)
    (ex : Transaction) (hex : ex ∈ s.transactions) (hexid : ex.id = i) (hexu : ex.userId = u) :
    (deleteTransaction s u i now).1 = Except.ok () ∧
    WF (deleteTransaction s u i now).2 ∧
    (deleteTransaction s u i now).2.monthlyHistory = s.monthlyHistory ∧
    s.nextId ≤ (deleteTransaction s u i now).2.nextId ∧
    (∀ x, x ∈ (deleteTransaction s u i now).2.transactions ↔
      (x ∈ s.transactions ∧ x.id ≠ i)) ∧
    ∃ row, rowFor (deleteTransaction s u i now).2 u ex.category now = some row ∧
      row.gastos = toFixed2val (fsum (((monthTxs (deleteTransaction s u i now).2 u ex.category now).filter
        fun t => decide (t.type = Kind.expense)).map Transaction.amount)) ∧
      row.receita = toFixed2val (fsum (((monthTxs (deleteTransaction s u i now).2 u ex.category now).filter
        fun t => decide (t.type = Kind.gain)).map Transaction.amount)) ∧
      ∀ x, x ∈ (deleteTransaction s u i now).2.monthlyData ↔
        (x = row ∨ (x ∈ s.monthlyData ∧ mdKey x ≠ (u, ex.category, now.month, now.year))) := by
  obtain ⟨hnd, hndt, hbd, hbt, hpw⟩ := hwf
  have hfind : s.transactions.find? (fun t => decide (t.id = i)) = some ex :=
    (txFind_some_iff s.transactions hndt i ex).mpr ⟨hex, hexid⟩
  set s1 : State := { s with
    transactions := s.transactions.filter fun t => decide (¬ t.id = i) } with hs1
  have hsub : s1.transactions.Sublist s.transactions := by
    rw [hs1]
    exact List.filter_sublist s.transactions
  have hwf1 : WF s1 := by
    refine ⟨hnd, ?_, hbd, ?_, hpw⟩
    · exact (hsub.map Transaction.id).nodup hndt
    · intro t ht
      exact hbt t (hsub.mem ht)
  have hmemtx : ∀ x, x ∈ s1.transactions ↔ (x ∈ s.transactions ∧ x.id ≠ i) := by
    intro x
    rw [hs1]
    simp [List.mem_filter]
  have hform : deleteTransaction s u i now =
      (Except.ok (), recalculateMonthlyData s1 u ex.category now) := by
    unfold deleteTransaction
    simp only [hfind]
    rw [if_pos hexu]
  obtain ⟨hwf', htx, hh, hn, row, hrow, hg, hr, hmem⟩ := recalc_spec s1 u ex.category now hwf1
  rw [hform]
  have hmts : monthTxs (recalculateMonthlyData s1 u ex.category now) u ex.category now =
      monthTxs s1 u ex.category now := by
    unfold monthTxs
    rw [htx]
  refine ⟨rfl, hwf', hh, hn, ?_, row, hrow, ?_, ?_, hmem⟩
  · intro x
    rw [htx]
    exact hmemtx x
  · rw [hmts]
    exact hg
  · rw [hmts]
    exact hr

/-! ### The current-month view -/

instance : IsTotal MonthlyData catLe :=
  ⟨fun a b => Nat.le_total (catOrder a.category) (catOrder b.category)⟩

instance : IsTrans MonthlyData catLe :=
  ⟨fun _ _ _ => Nat.le_trans⟩

instance : IsTotal MonthlyHistory histLe :=
  ⟨fun a b => by unfold histLe; omega⟩

instance : IsTrans MonthlyHistory histLe :=
  ⟨fun a b c => by unfold histLe; omega⟩

theorem catOrder_le_two (c : Cat) : catOrder c ≤ 2 := by cases c <;> simp [catOrder]

theorem catOrder_inj {a b : Cat} (h : catOrder a = catOrder b) : a = b := by
  cases a <;> cases b <;> simp_all [catOrder]

theorem cat_of_order_zero {c : Cat} (h : catOrder c = 0) : c = Cat.plr_nacional := by
  cases c <;> simp_all [catOrder]

theorem cat_of_order_one {c : Cat} (h : catOrder c = 1) : c = Cat.plr_internacional := by
  cases c <;> simp_all [catOrder]

theorem cat_of_order_two {c : Cat} (h : catOrder c = 2) : c = Cat.marca_roupas := by
  cases c <;> simp_all [catOrder]

theorem mdKey_fields (r : MonthlyData) (u : ℕ) (c : Cat) (m y : ℕ) :
    mdKey r = (u, c, m, y) ↔ (r.userId = u ∧ r.category = c ∧ r.month = m ∧ r.year = y) := by
  simp [mdKey, Prod.ext_iff]

theorem mem_currentRows (s : State) (u : ℕ) (now : Ym) (x : MonthlyData) :
    x ∈ currentRows s u now ↔
      (x ∈ s.monthlyData ∧ x.userId = u ∧ x.month = now.month ∧ x.year = now.year) := by
  unfold currentRows
  simp [List.mem_filter]

theorem currentRows_def (s : State) (u : ℕ) (now : Ym) :
    currentRows s u now = s.monthlyData.filter
      (fun d => decide (d.userId = u ∧ d.month = now.month ∧ d.year = now.year)) := rfl

theorem currentRows_nodup (s : State) (u : ℕ) (now : Ym)
    (hnd : (s.monthlyData.map MonthlyData.id).Nodup) : (currentRows s u now).Nodup := by
  exact (List.Nodup.of_map MonthlyData.id hnd).filter _

theorem currentRows_pairwise (s : State) (u : ℕ) (now : Ym)
    (hpw : s.monthlyData.Pairwise fun a b => mdKey a ≠ mdKey b) :
    (currentRows s u now).Pairwise fun a b => mdKey a ≠ mdKey b :=
  hpw.sublist (List.filter_sublist s.monthlyData)

theorem currentRows_cat_pairwise (s : State) (u : ℕ) (now : Ym)
    (hpw : s.monthlyData.Pairwise fun a b => mdKey a ≠ mdKey b) :
    (currentRows s u now).Pairwise fun a b => a.category ≠ b.category := by
  apply (currentRows_pairwise s u now hpw).imp_of_mem
  intro a b ha hb hk
  obtain ⟨_, hau, ham, hay⟩ := (mem_currentRows s u now a).mp ha
  obtain ⟨_, hbu, hbm, hby⟩ := (mem_currentRows s u now b).mp hb
  intro hcat
  apply hk
  simp [mdKey, Prod.ext_iff, hau, ham, hay, hbu, hbm, hby, hcat]

theorem mem_currentRows_rowFor (s : State) (u : ℕ) (now : Ym)
    (hpw : s.monthlyData.Pairwise fun a b => mdKey a ≠ mdKey b) (x : MonthlyData)
    (hx : x ∈ currentRows s u now) : rowFor s u x.category now = some x := by
  obtain ⟨hmem, hu, hm, hy⟩ := (mem_currentRows s u now x).mp hx
  exact (rowFor_some_iff s u x.category now hpw x).mpr
    ⟨hmem, (mdKey_fields x u x.category now.month now.year).mpr ⟨hu, rfl, hm, hy⟩⟩

theorem gcmFind_eq_rowFor (s : State) (u : ℕ) (now : Ym) (c : Cat)
    (hpw : s.monthlyData.Pairwise fun a b => mdKey a ≠ mdKey b) :
    (currentRows s u now).find? (fun d => decide (d.category = c)) = rowFor s u c now := by
  rcases hfind : rowFor s u c now with _ | d
  · rw [List.find?_eq_none]
    intro x hx
    have := mem_currentRows_rowFor s u now hpw x hx
    simp only [decide_eq_true_eq]
    intro hcat
    rw [hcat] at this
    rw [this] at hfind
    exact Option.noConfusion hfind
  · obtain ⟨hmem, hkey⟩ := (rowFor_some_iff s u c now hpw d).mp hfind
    obtain ⟨hu, hc, hm, hy⟩ := (mdKey_fields d u c now.month now.year).mp hkey
    apply (find?_key_unique (fun d => d.category) c (currentRows s u now)
      (currentRows_cat_pairwise s u now hpw) _ (fun a => by simp) d).mpr
    exact ⟨(mem_currentRows s u now d).mpr ⟨hmem, hu, hm, hy⟩, hc⟩

/-- The zero-valued row lazily created by `getCurrentMonthData`. -/
def zeroRow (n u : ℕ) (c : Cat) (now : Ym) : MonthlyData :=
  ⟨n, u, c, now.month, now.year, 0, 0⟩

/-- The state after `getCurrentMonthData` has persisted one fresh zero
row (`this.monthlyData.set(id, newData)` plus a fresh id). -/
def pushZero (s : State) (u : ℕ) (c : Cat) (now : Ym) : State :=
  { s with monthlyData := s.monthlyData ++ [zeroRow s.nextId u c now], nextId := s.nextId + 1 }

theorem zero_step (s : State) (u : ℕ) (c : Cat) (now : Ym) (hwf : WF s)
    (hnone : rowFor s u c now = none) :
    WF (pushZero s u c now) ∧
    (∀ x, x ∈ (pushZero s u c now).monthlyData ↔
      (x = zeroRow s.nextId u c now ∨ x ∈ s.monthlyData)) ∧
    (∀ c', c' ≠ c → rowFor (pushZero s u c now) u c' now = rowFor s u c' now) ∧
    rowFor (pushZero s u c now) u c now = some (zeroRow s.nextId u c now) := by
  have he : updateMonthlyData s u ⟨c, 0, 0⟩ now =
      (zeroRow s.nextId u c now, pushZero s u c now) := by
    unfold updateMonthlyData pushZero zeroRow
    rw [hnone]
  obtain ⟨hkey, _, _, hmem, _, _, _, hwf'⟩ := updateMonthlyData_spec s u ⟨c, 0, 0⟩ now hwf
  rw [he] at hkey hmem hwf'
  have hall := (rowFor_none_iff s u c now).mp hnone
  refine ⟨hwf', ?_, ?_, ?_⟩
  · intro x
    rw [hmem x]
    constructor
    · rintro (h | ⟨h, _⟩)
      · exact Or.inl h
      · exact Or.inr h
    · rintro (h | h)
      · exact Or.inl h
      · exact Or.inr ⟨h, hall x h⟩
  · intro c' hc'
    have hkne : ∀ d : MonthlyData, mdKey d = (u, c', now.month, now.year) →
        mdKey d ≠ (u, c, now.month, now.year) := by
      intro d hd
      rw [hd]
      simp only [Prod.mk.injEq, ne_eq, not_and]
      intro
      exact fun h => absurd h hc'
    rcases hfind : rowFor s u c' now with _ | d
    · have hn := (rowFor_none_iff s u c' now).mp hfind
      apply (rowFor_none_iff _ u c' now).mpr
      intro x hx
      rcases (hmem x).mp hx with rfl | ⟨hxs, _⟩
      · rw [hkey]
        simp only [Prod.mk.injEq, ne_eq, not_and]
        intro
        exact fun h => absurd h.symm hc'
      · exact hn x hxs
    · obtain ⟨hdm, hdk⟩ := (rowFor_some_iff s u c' now hwf.2.2.2.2 d).mp hfind
      apply (rowFor_some_iff _ u c' now hwf'.2.2.2.2 d).mpr
      exact ⟨(hmem d).mpr (Or.inr ⟨hdm, hkne d hdk⟩), hdk⟩
  · apply (rowFor_some_iff _ u c now hwf'.2.2.2.2 _).mpr
    exact ⟨(hmem _).mpr (Or.inl rfl), hkey⟩

theorem currentRows_perm (s : State) (u : ℕ) (now : Ym) (hwf : WF s) :
    List.Perm (currentRows s u now)
      ((rowFor s u Cat.plr_nacional now).toList ++
        (rowFor s u Cat.plr_internacional now).toList ++
        (rowFor s u Cat.marca_roupas now).toList) := by
  obtain ⟨hnd, _, _, _, hpw⟩ := hwf
  have hcats : ∀ (c : Cat) (d : MonthlyData), d ∈ (rowFor s u c now).toList →
      d ∈ s.monthlyData ∧ mdKey d = (u, c, now.month, now.year) := by
    intro c d hd
    rcases hf : rowFor s u c now with _ | e
    · rw [hf] at hd
      exact absurd hd (List.not_mem_nil d)
    · rw [hf] at hd
      simp only [Option.toList_some, List.mem_singleton] at hd
      subst hd
      exact (rowFor_some_iff s u c now hpw d).mp hf
  apply (List.perm_ext_iff_of_nodup (currentRows_nodup s u now hnd) ?_).mpr
  · intro x
    rw [mem_currentRows]
    constructor
    · rintro ⟨hmem, hu, hm, hy⟩
      have hx := (rowFor_some_iff s u x.category now hpw x).mpr
        ⟨hmem, (mdKey_fields x u x.category now.month now.year).mpr ⟨hu, rfl, hm, hy⟩⟩
      simp only [List.mem_append]
      rcases hc : x.category with _ | _ | _
      · rw [hc] at hx
        exact Or.inl (Or.inl (by rw [hx]; simp))
      · rw [hc] at hx
        exact Or.inl (Or.inr (by rw [hx]; simp))
      · rw [hc] at hx
        exact Or.inr (by rw [hx]; simp)
    · intro hx
      simp only [List.mem_append] at hx
      rcases hx with (hx | hx) | hx
      · obtain ⟨hm, hk⟩ := hcats Cat.plr_nacional x hx
        obtain ⟨h1, _, h3, h4⟩ := (mdKey_fields _ _ _ _ _).mp hk
        exact ⟨hm, h1, h3, h4⟩
      · obtain ⟨hm, hk⟩ := hcats Cat.plr_internacional x hx
        obtain ⟨h1, _, h3, h4⟩ := (mdKey_fields _ _ _ _ _).mp hk
        exact ⟨hm, h1, h3, h4⟩
      · obtain ⟨hm, hk⟩ := hcats Cat.marca_roupas x hx
        obtain ⟨h1, _, h3, h4⟩ := (mdKey_fields _ _ _ _ _).mp hk
        exact ⟨hm, h1, h3, h4⟩
  · rw [List.nodup_append, List.nodup_append]
    refine ⟨⟨Option.toList_nodup _, Option.toList_nodup _, ?_⟩, Option.toList_nodup _, ?_⟩
    · intro a ha hb
      obtain ⟨_, hka⟩ := hcats _ a ha
      obtain ⟨_, hkb⟩ := hcats _ a hb
      rw [hka] at hkb
      simp [Prod.ext_iff] at hkb
    · intro a ha hb
      rcases List.mem_append.mp ha with ha | ha
      · obtain ⟨_, hka⟩ := hcats _ a ha
        obtain ⟨_, hkb⟩ := hcats _ a hb
        rw [hka] at hkb
        simp [Prod.ext_iff] at hkb
      · obtain ⟨_, hka⟩ := hcats _ a ha
        obtain ⟨_, hkb⟩ := hcats _ a hb
        rw [hka] at hkb
        simp [Prod.ext_iff] at hkb

theorem forall₂_imp_mem {α β : Type} {P Q : α → β → Prop} :
    ∀ {l₁ : List α} {l₂ : List β}, List.Forall₂ P l₁ l₂ →
      (∀ a ∈ l₁, ∀ b, P a b → Q a b) → List.Forall₂ Q l₁ l₂ := by
  intro l₁ l₂ h
  induction h with
  | nil => exact fun _ => List.Forall₂.nil
  | @cons a b l₁ l₂ hab _ ih =>
    intro hi
    exact List.Forall₂.cons (hi a (List.mem_cons_self a l₁) b hab)
      (ih fun x hx y hy => hi x (List.mem_cons_of_mem a hx) y hy)

theorem gcmLoop_spec (u : ℕ) (now : Ym) (ed : List MonthlyData) :
    ∀ (cats : List Cat), cats.Nodup →
    ∀ (s : State), WF s →
    (∀ c ∈ cats, ed.find? (fun d => decide (d.category = c)) = rowFor s u c now) →
    List.Forall₂ (fun c r => r.category = c ∧ r.userId = u ∧ r.month = now.month ∧
        r.year = now.year ∧
        (rowFor s u c now = some r ∨ (rowFor s u c now = none ∧ r.gastos = 0 ∧ r.receita = 0)))
      cats (gcmLoop ed u now cats s).1 ∧
    WF (gcmLoop ed u now cats s).2 ∧
    (gcmLoop ed u now cats s).2.transactions = s.transactions ∧
    (gcmLoop ed u now cats s).2.monthlyHistory = s.monthlyHistory ∧
    s.nextId ≤ (gcmLoop ed u now cats s).2.nextId ∧
    ∃ created, (gcmLoop ed u now cats s).2.monthlyData = s.monthlyData ++ created ∧
      (∀ x ∈ created, x.userId = u ∧ x.month = now.month ∧ x.year = now.year) ∧
      List.Perm (gcmLoop ed u now cats s).1
        ((cats.filterMap fun c => rowFor s u c now) ++ created) := by
  intro cats
  induction cats with
  | nil =>
    intro _ s hwf _
    refine ⟨List.Forall₂.nil, hwf, rfl, rfl, Nat.le_refl _, [], by simp [gcmLoop], ?_, ?_⟩
    · intro x hx
      exact absurd hx (List.not_mem_nil x)
    · simp [gcmLoop, List.filterMap]
  | cons c cs ih =>
    intro hnd s hwf hfind
    have hcmem : c ∉ cs := (List.nodup_cons.mp hnd).1
    have hndcs : cs.Nodup := (List.nodup_cons.mp hnd).2
    rcases hc : rowFor s u c now with _ | d
    · -- missing: a zero row is created and persisted
      obtain ⟨hwf₁, hmem₁, hframe₁, _⟩ := zero_step s u c now hwf hc
      have hfind₁ : ∀ c' ∈ cs,
          ed.find? (fun d => decide (d.category = c')) = rowFor (pushZero s u c now) u c' now := by
        intro c' hc'
        have hne : c' ≠ c := fun e => hcmem (e ▸ hc')
        rw [hfind c' (List.mem_cons_of_mem c hc'), hframe₁ c' hne]
      obtain ⟨hfa, hwf', htx, hh, hn, created₁, hmd, hcf, hperm⟩ :=
        ih hndcs (pushZero s u c now) hwf₁ hfind₁
      have hred : gcmLoop ed u now (c :: cs) s = ((zeroRow s.nextId u c now) ::
          (gcmLoop ed u now cs (pushZero s u c now)).1,
          (gcmLoop ed u now cs (pushZero s u c now)).2) := by
        simp only [gcmLoop]
        rw [hfind c (List.mem_cons_self c cs), hc]
        rfl
      rw [hred]
      have hframe_eq : ∀ c' ∈ cs, rowFor (pushZero s u c now) u c' now = rowFor s u c' now := by
        intro c' hc'
        exact hframe₁ c' (fun e => hcmem (e ▸ hc'))
      refine ⟨?_, hwf', htx, hh, Nat.le_trans (Nat.le_succ _) hn, ?_⟩
      · refine List.Forall₂.cons ⟨rfl, rfl, rfl, rfl, Or.inr ⟨hc, rfl, rfl⟩⟩ ?_
        refine forall₂_imp_mem hfa ?_
        intro a ha b hb
        rw [hframe_eq a ha] at hb
        exact hb
      · refine ⟨zeroRow s.nextId u c now :: created₁, ?_, ?_, ?_⟩
        · rw [hmd]
          show _ = s.monthlyData ++ ([zeroRow s.nextId u c now] ++ created₁)
          rw [← List.append_assoc]
          rfl
        · intro x hx
          rcases List.mem_cons.mp hx with rfl | hx
          · exact ⟨rfl, rfl, rfl⟩
          · exact hcf x hx
        · have hfm : cs.filterMap (fun c' => rowFor (pushZero s u c now) u c' now) =
              cs.filterMap (fun c' => rowFor s u c' now) := by
            apply List.filterMap_congr
            intro c' hc'
            rw [hframe_eq c' hc']
          rw [hfm] at hperm
          have h1 : List.Perm ((zeroRow s.nextId u c now) ::
              (gcmLoop ed u now cs (pushZero s u c now)).1)
              ((zeroRow s.nextId u c now) ::
                ((cs.filterMap fun c' => rowFor s u c' now) ++ created₁)) :=
            List.Perm.cons _ hperm
          have h2 : List.Perm
              ((cs.filterMap fun c' => rowFor s u c' now) ++
                ((zeroRow s.nextId u c now) :: created₁))
              ((zeroRow s.nextId u c now) ::
                ((cs.filterMap fun c' => rowFor s u c' now) ++ created₁)) :=
            List.perm_middle
          have h3 := h1.trans h2.symm
          have hfm2 : (c :: cs).filterMap (fun c' => rowFor s u c' now) =
              cs.filterMap (fun c' => rowFor s u c' now) := by
            rw [List.filterMap_cons]
            rw [hc]
          rw [hfm2]
          exact h3
    · -- found: the stored row is returned unchanged
      obtain ⟨hdm, hdk⟩ := (rowFor_some_iff s u c now hwf.2.2.2.2 d).mp hc
      obtain ⟨hdu, hdc, hdmn, hdy⟩ := (mdKey_fields d u c now.month now.year).mp hdk
      have hfind' : ∀ c' ∈ cs,
          ed.find? (fun d => decide (d.category = c')) = rowFor s u c' now := by
        intro c' hc'
        exact hfind c' (List.mem_cons_of_mem c hc')
      obtain ⟨hfa, hwf', htx, hh, hn, created₁, hmd, hcf, hperm⟩ := ih hndcs s hwf hfind'
      have hred : gcmLoop ed u now (c :: cs) s =
          (d :: (gcmLoop ed u now cs s).1, (gcmLoop ed u now cs s).2) := by
        simp only [gcmLoop]
        rw [hfind c (List.mem_cons_self c cs), hc]
      rw [hred]
      refine ⟨List.Forall₂.cons ⟨hdc, hdu, hdmn, hdy, Or.inl hc⟩ hfa, hwf', htx, hh, hn,
        created₁, hmd, hcf, ?_⟩
      have hfm2 : (c :: cs).filterMap (fun c' => rowFor s u c' now) =
          d :: cs.filterMap (fun c' => rowFor s u c' now) := by
        rw [List.filterMap_cons, hc]
      rw [hfm2]
      exact List.Perm.cons d hperm

theorem filterMap_three (f : Cat → Option MonthlyData) :
    [Cat.plr_nacional, Cat.plr_internacional, Cat.marca_roupas].filterMap f =
      (f Cat.plr_nacional).toList ++ (f Cat.plr_internacional).toList ++
        (f Cat.marca_roupas).toList := by
  rcases hA : f Cat.plr_nacional with _ | a <;>
    rcases hB : f Cat.plr_internacional with _ | b <;>
    rcases hC : f Cat.marca_roupas with _ | c <;>
    simp [List.filterMap_cons, hA, hB, hC]

theorem gcm_spec (s : State) (u : ℕ) (now : Ym) (hwf : WF s) :
    ∃ rA rB rC,
      (getCurrentMonthData s u now).1 = [rA, rB, rC] ∧
      rA.category = Cat.plr_nacional ∧
      rB.category = Cat.plr_internacional ∧
      rC.category = Cat.marca_roupas ∧
      (∀ r ∈ [rA, rB, rC], r.userId = u ∧ r.month = now.month ∧ r.year = now.year) ∧
      (rowFor s u Cat.plr_nacional now = some rA ∨
        (rowFor s u Cat.plr_nacional now = none ∧ rA.gastos = 0 ∧ rA.receita = 0)) ∧
      (rowFor s u Cat.plr_internacional now = some rB ∨
        (rowFor s u Cat.plr_internacional now = none ∧ rB.gastos = 0 ∧ rB.receita = 0)) ∧
      (rowFor s u Cat.marca_roupas now = some rC ∨
        (rowFor s u Cat.marca_roupas now = none ∧ rC.gastos = 0 ∧ rC.receita = 0)) ∧
      WF (getCurrentMonthData s u now).2 ∧
      (getCurrentMonthData s u now).2.transactions = s.transactions ∧
      (getCurrentMonthData s u now).2.monthlyHistory = s.monthlyHistory ∧
      s.nextId ≤ (getCurrentMonthData s u now).2.nextId ∧
      (∀ x, x ∈ (getCurrentMonthData s u now).2.monthlyData ↔
        (x ∈ s.monthlyData ∨ x ∈ [rA, rB, rC])) ∧
      List.Perm (currentRows (getCurrentMonthData s u now).2 u now) [rA, rB, rC] := by
  have hpw := hwf.2.2.2.2
  by_cases hlen : (currentRows s u now).length = 3
  · -- exactly three rows exist: they are returned sorted, state unchanged
    have hgcm : getCurrentMonthData s u now =
        (List.insertionSort catLe (currentRows s u now), s) := by
      simp only [getCurrentMonthData]
      rw [if_pos hlen]
    have hperm := List.perm_insertionSort catLe (currentRows s u now)
    have hsorted := List.sorted_insertionSort catLe (currentRows s u now)
    have hlen3 : (List.insertionSort catLe (currentRows s u now)).length = 3 := by
      rw [hperm.length_eq]
      exact hlen
    obtain ⟨x, y, z, hxyz⟩ := List.length_eq_three.mp hlen3
    have hcatpw : (List.insertionSort catLe (currentRows s u now)).Pairwise
        fun a b => a.category ≠ b.category :=
      (hperm.pairwise_iff fun h e => h e.symm).mpr (currentRows_cat_pairwise s u now hpw)
    rw [hxyz] at hsorted hcatpw hperm
    obtain ⟨hx1, hsorted⟩ := List.pairwise_cons.mp hsorted
    obtain ⟨hy1, _⟩ := List.pairwise_cons.mp hsorted
    obtain ⟨hd1, hcatpw⟩ := List.pairwise_cons.mp hcatpw
    obtain ⟨hd2, _⟩ := List.pairwise_cons.mp hcatpw
    have hxy : catOrder x.category ≤ catOrder y.category := hx1 y (by simp)
    have hyz : catOrder y.category ≤ catOrder z.category := hy1 z (by simp)
    have hdxy : x.category ≠ y.category := hd1 y (by simp)
    have hdyz : y.category ≠ z.category := hd2 z (by simp)
    have hdxz : x.category ≠ z.category := hd1 z (by simp)
    have hox : catOrder x.category = 0 ∧ catOrder y.category = 1 ∧ catOrder z.category = 2 := by
      have h1 := catOrder_le_two x.category
      have h2 := catOrder_le_two y.category
      have h3 := catOrder_le_two z.category
      have n1 : catOrder x.category ≠ catOrder y.category := fun h => hdxy (catOrder_inj h)
      have n2 : catOrder y.category ≠ catOrder z.category := fun h => hdyz (catOrder_inj h)
      have n3 : catOrder x.category ≠ catOrder z.category := fun h => hdxz (catOrder_inj h)
      omega
    have hcx : x.category = Cat.plr_nacional := cat_of_order_zero hox.1
    have hcy : y.category = Cat.plr_internacional := cat_of_order_one hox.2.1
    have hcz : z.category = Cat.marca_roupas := cat_of_order_two hox.2.2
    have hmemed : ∀ r ∈ [x, y, z], r ∈ currentRows s u now := by
      intro r hr
      exact hperm.mem_iff.mp hr
    refine ⟨x, y, z, by rw [hgcm]; exact hxyz, hcx, hcy, hcz, ?_, ?_, ?_, ?_, ?_, ?_, ?_, ?_, ?_, ?_⟩
    · intro r hr
      obtain ⟨_, h2, h3, h4⟩ := (mem_currentRows s u now r).mp (hmemed r hr)
      exact ⟨h2, h3, h4⟩
    · refine Or.inl ?_
      have := mem_currentRows_rowFor s u now hpw x (hmemed x (by simp))
      rw [hcx] at this
      exact this
    · refine Or.inl ?_
      have := mem_currentRows_rowFor s u now hpw y (hmemed y (by simp))
      rw [hcy] at this
      exact this
    · refine Or.inl ?_
      have := mem_currentRows_rowFor s u now hpw z (hmemed z (by simp))
      rw [hcz] at this
      exact this
    · rw [hgcm]
      exact hwf
    · rw [hgcm]
    · rw [hgcm]
    · rw [hgcm]
    · rw [hgcm]
      intro w
      constructor
      · exact fun h => Or.inl h
      · rintro (h | h)
        · exact h
        · exact ((mem_currentRows s u now w).mp (hmemed w h)).1
    · rw [hgcm]
      exact hperm.symm
  · -- fewer rows: the loop merges stored rows with fresh zero rows
    have hgcm : getCurrentMonthData s u now = gcmLoop (currentRows s u now) u now
        [Cat.plr_nacional, Cat.plr_internacional, Cat.marca_roupas] s := by
      simp only [getCurrentMonthData]
      rw [if_neg hlen]
    have hfind : ∀ c ∈ [Cat.plr_nacional, Cat.plr_internacional, Cat.marca_roupas],
        (currentRows s u now).find? (fun d => decide (d.category = c)) = rowFor s u c now := by
      intro c _
      exact gcmFind_eq_rowFor s u now c hpw
    obtain ⟨hfa, hwf', htx, hh, hn, created, hmd, hcf, hperm⟩ :=
      gcmLoop_spec u now (currentRows s u now)
        [Cat.plr_nacional, Cat.plr_internacional, Cat.marca_roupas] (by decide) s hwf hfind
    have hlr : (gcmLoop (currentRows s u now) u now
        [Cat.plr_nacional, Cat.plr_internacional, Cat.marca_roupas] s).1.length = 3 :=
      (List.Forall₂.length_eq hfa).symm
    obtain ⟨rA, rB, rC, hrows⟩ := List.length_eq_three.mp hlr
    rw [hrows] at hfa hperm
    obtain ⟨hPA, hfa⟩ := List.forall₂_cons.mp hfa
    obtain ⟨hPB, hfa⟩ := List.forall₂_cons.mp hfa
    obtain ⟨hPC, _⟩ := List.forall₂_cons.mp hfa
    obtain ⟨hcA, huA, hmA, hyA, hdA⟩ := hPA
    obtain ⟨hcB, huB, hmB, hyB, hdB⟩ := hPB
    obtain ⟨hcC, huC, hmC, hyC, hdC⟩ := hPC
    have hcreated_mem : ∀ x ∈ created, x ∈ [rA, rB, rC] := by
      intro x hx
      exact hperm.mem_iff.mpr (List.mem_append_right _ hx)
    refine ⟨rA, rB, rC, by rw [hgcm]; exact hrows, hcA, hcB, hcC, ?_, hdA, hdB, hdC,
      ?_, ?_, ?_, ?_, ?_, ?_⟩
    · intro r hr
      rcases List.mem_cons.mp hr with rfl | hr
      · exact ⟨huA, hmA, hyA⟩
      rcases List.mem_cons.mp hr with rfl | hr
      · exact ⟨huB, hmB, hyB⟩
      rcases List.mem_cons.mp hr with rfl | hr
      · exact ⟨huC, hmC, hyC⟩
      exact absurd hr (List.not_mem_nil r)
    · rw [hgcm]
      exact hwf'
    · rw [hgcm]
      exact htx
    · rw [hgcm]
      exact hh
    · rw [hgcm]
      exact hn
    · rw [hgcm]
      intro w
      rw [hmd, List.mem_append]
      constructor
      · rintro (h | h)
        · exact Or.inl h
        · exact Or.inr (hcreated_mem w h)
      · rintro (h | h)
        · exact Or.inl h
        · rcases List.mem_append.mp (hperm.mem_iff.mp h) with hfm | hcr
          · obtain ⟨c, _, hsome⟩ := List.mem_filterMap.mp hfm
            exact Or.inl ((rowFor_some_iff s u c now hpw w).mp hsome).1
          · exact Or.inr hcr
    · rw [hgcm]
      have hcr_eq : List.filter (fun d =>
          decide (d.userId = u ∧ d.month = now.month ∧ d.year = now.year)) created = created := by
        apply List.filter_eq_self.mpr
        intro x hx
        obtain ⟨h1, h2, h3⟩ := hcf x hx
        simp [h1, h2, h3]
      have hsplit : currentRows (gcmLoop (currentRows s u now) u now
          [Cat.plr_nacional, Cat.plr_internacional, Cat.marca_roupas] s).2 u now =
          currentRows s u now ++ created := by
        rw [currentRows_def, hmd, List.filter_append, hcr_eq, ← currentRows_def]
      rw [hsplit]
      have h1 := currentRows_perm s u now hwf
      rw [← filterMap_three (fun c => rowFor s u c now)] at h1
      exact (h1.append_right created).trans hperm.symm

theorem rowFor_none_of_currentRows_nil (s : State) (u : ℕ) (now : Ym)
    (h : currentRows s u now = []) (c : Cat) : rowFor s u c now = none := by
  apply (rowFor_none_iff s u c now).mpr
  intro d hd hk
  obtain ⟨h1, _, h3, h4⟩ := (mdKey_fields d u c now.month now.year).mp hk
  have : d ∈ currentRows s u now := (mem_currentRows s u now d).mpr ⟨hd, h1, h3, h4⟩
  rw [h] at this
  exact absurd this (List.not_mem_nil d)

theorem closeMonth_spec (s : State) (u : ℕ) (now : Ym) (hwf : WF s) :
    ∃ rA rB rC h,
      (rowFor s u Cat.plr_nacional now = some rA ∨
        (rowFor s u Cat.plr_nacional now = none ∧ rA.gastos = 0 ∧ rA.receita = 0)) ∧
      (rowFor s u Cat.plr_internacional now = some rB ∨
        (rowFor s u Cat.plr_internacional now = none ∧ rB.gastos = 0 ∧ rB.receita = 0)) ∧
      (rowFor s u Cat.marca_roupas now = some rC ∨
        (rowFor s u Cat.marca_roupas now = none ∧ rC.gastos = 0 ∧ rC.receita = 0)) ∧
      h.userId = u ∧ h.month = now.month ∧ h.year = now.year ∧
      h.plrNacionalGastos = rA.gastos ∧ h.plrNacionalReceita = rA.receita ∧
      h.plrInternacionalGastos = rB.gastos ∧ h.plrInternacionalReceita = rB.receita ∧
      h.marcaRoupasGastos = rC.gastos ∧ h.marcaRoupasReceita = rC.receita ∧
      (closeMonth s u now).monthlyHistory = s.monthlyHistory ++ [h] ∧
      (closeMonth s u now).transactions = s.transactions ∧
      currentRows (closeMonth s u now) u now = [] ∧
      WF (closeMonth s u now) ∧
      s.nextId ≤ h.id ∧ h.id < (closeMonth s u now).nextId := by
  obtain ⟨rA, rB, rC, hrows, hcA, hcB, hcC, hfields, hdA, hdB, hdC, hwf1, htx1, hh1, hn1,
    hmem1, hcrperm⟩ := gcm_spec s u now hwf
  have hfA : [rA, rB, rC].find? (fun d => decide (d.category = Cat.plr_nacional)) = some rA :=
    List.find?_cons_of_pos _ (by simp [hcA])
  have hfB : [rA, rB, rC].find? (fun d => decide (d.category = Cat.plr_internacional)) = some rB := by
    rw [List.find?_cons_of_neg _ (by simp [hcA]), List.find?_cons_of_pos _ (by simp [hcB])]
  have hfC : [rA, rB, rC].find? (fun d => decide (d.category = Cat.marca_roupas)) = some rC := by
    rw [List.find?_cons_of_neg _ (by simp [hcA]), List.find?_cons_of_neg _ (by simp [hcB]),
      List.find?_cons_of_pos _ (by simp [hcC])]
  have hclose : closeMonth s u now =
      { monthlyData := (((getCurrentMonthData s u now).2.monthlyData.filter
          (fun x => decide (¬ x.id = rA.id))).filter
          (fun x => decide (¬ x.id = rB.id))).filter (fun x => decide (¬ x.id = rC.id)),
        monthlyHistory := (getCurrentMonthData s u now).2.monthlyHistory ++
          [⟨(getCurrentMonthData s u now).2.nextId, u, now.month, now.year,
            rA.gastos, rA.receita, rB.gastos, rB.receita, rC.gastos, rC.receita⟩],
        transactions := (getCurrentMonthData s u now).2.transactions,
        nextId := (getCurrentMonthData s u now).2.nextId + 1 } := by
    simp only [closeMonth]
    rw [hrows, hfA, hfB, hfC]
    rfl
  obtain ⟨hwfnd, hwfndt, hwfbd, hwfbt, hwfpw⟩ := hwf1
  have hsub : (closeMonth s u now).monthlyData.Sublist
      (getCurrentMonthData s u now).2.monthlyData := by
    rw [hclose]
    exact ((List.filter_sublist _).trans (List.filter_sublist _)).trans (List.filter_sublist _)
  refine ⟨rA, rB, rC, _, hdA, hdB, hdC, rfl, rfl, rfl, rfl, rfl, rfl, rfl, rfl, rfl,
    by rw [hclose]; rw [hh1], by rw [hclose]; exact htx1, ?_, ?_, ?_, ?_⟩
  · -- no current rows survive the deletions
    apply List.eq_nil_iff_forall_not_mem.mpr
    intro x hx
    obtain ⟨hxm, hxu, hxmn, hxy⟩ := (mem_currentRows _ u now x).mp hx
    rw [hclose] at hxm
    simp only [List.mem_filter, decide_eq_true_eq] at hxm
    obtain ⟨⟨⟨hxm, hna⟩, hnb⟩, hnc⟩ := hxm
    have hxcur : x ∈ currentRows (getCurrentMonthData s u now).2 u now :=
      (mem_currentRows _ u now x).mpr ⟨hxm, hxu, hxmn, hxy⟩
    have hx3 : x ∈ [rA, rB, rC] := hcrperm.mem_iff.mp hxcur
    rcases List.mem_cons.mp hx3 with rfl | hx3
    · exact hna rfl
    rcases List.mem_cons.mp hx3 with rfl | hx3
    · exact hnb rfl
    rcases List.mem_cons.mp hx3 with rfl | hx3
    · exact hnc rfl
    exact absurd hx3 (List.not_mem_nil x)
  · -- well-formedness is preserved
    refine ⟨?_, ?_, ?_, ?_, ?_⟩
    · exact (hsub.map MonthlyData.id).nodup hwfnd
    · rw [hclose]
      exact hwfndt
    · intro d hd
      rw [hclose]
      exact Nat.lt_succ_of_lt (hwfbd d (hsub.mem hd))
    · intro t ht
      rw [hclose] at ht ⊢
      exact Nat.lt_succ_of_lt (hwfbt t ht)
    · exact hwfpw.sublist hsub
  · exact hn1
  · rw [hclose]
    exact Nat.lt_succ_self _

/-! ### Operation-level helpers -/

theorem updateTransaction_fail_none (s : State) (u i : ℕ) (p : TxPatch) (now : Ym)
    (hf : s.transactions.find? (fun t => decide (t.id = i)) = none) :
    updateTransaction s u i p now = (Except.error "Transaction not found", s) := by
  unfold updateTransaction
  rw [hf]

theorem updateTransaction_fail_owner (s : State) (u i : ℕ) (p : TxPatch) (now : Ym)
    (ex : Transaction) (hf : s.transactions.find? (fun t => decide (t.id = i)) = some ex)
    (hu : ex.userId ≠ u) :
    updateTransaction s u i p now = (Except.error "Transaction not found", s) := by
  unfold updateTransaction
  rw [hf]
  simp only [if_neg hu]

theorem deleteTransaction_fail_none (s : State) (u i : ℕ) (now : Ym)
    (hf : s.transactions.find? (fun t => decide (t.id = i)) = none) :
    deleteTransaction s u i now = (Except.error "Transaction not found", s) := by
  unfold deleteTransaction
  rw [hf]

theorem deleteTransaction_fail_owner (s : State) (u i : ℕ) (now : Ym)
    (ex : Transaction) (hf : s.transactions.find? (fun t => decide (t.id = i)) = some ex)
    (hu : ex.userId ≠ u) :
    deleteTransaction s u i now = (Except.error "Transaction not found", s) := by
  unfold deleteTransaction
  rw [hf]
  simp only [if_neg hu]

theorem applyTxOp_WF (s : State) (u : ℕ) (now : Ym) (op : TxOp) (hwf : WF s) :
    WF (applyTxOp s u now op) := by
  cases op with
  | create tx => exact (create_spec s u tx now hwf).1
  | update i p =>
    show WF (updateTransaction s u i p now).2
    rcases hf : s.transactions.find? (fun t => decide (t.id = i)) with _ | ex
    · rw [updateTransaction_fail_none s u i p now hf]
      exact hwf
    · by_cases hu : ex.userId = u
      · exact (update_spec s u i p now hwf ex (List.mem_of_find?_eq_some hf)
          (by simpa using List.find?_some hf) hu).2.1
      · rw [updateTransaction_fail_owner s u i p now ex hf hu]
        exact hwf
  | delete i =>
    show WF (deleteTransaction s u i now).2
    rcases hf : s.transactions.find? (fun t => decide (t.id = i)) with _ | ex
    · rw [deleteTransaction_fail_none s u i now hf]
      exact hwf
    · by_cases hu : ex.userId = u
      · exact (delete_spec s u i now hwf ex (List.mem_of_find?_eq_some hf)
          (by simpa using List.find?_some hf) hu).2.1
      · rw [deleteTransaction_fail_owner s u i now ex hf hu]
        exact hwf

theorem runTxOps_WF (s : State) (u : ℕ) (now : Ym) (ops : List TxOp) (hwf : WF s) :
    WF (runTxOps s u now ops) := by
  induction ops generalizing s with
  | nil => exact hwf
  | cons op ops ih => exact ih (applyTxOp s u now op) (applyTxOp_WF s u now op hwf)

/-- After a successful transaction operation, the totals row of the
category handed to `recalculateMonthlyData` holds exactly the
`toFixed(2)`-formatted binary64 sums over the surviving current-month
transactions of that category. -/
theorem txop_row_spec (s : State) (u : ℕ) (now : Ym) (op : TxOp) (c : Cat) (hwf : WF s)
    (hop : affectedCat s u op = some c) :
    ∃ row, rowFor (applyTxOp s u now op) u c now = some row ∧
      row.gastos = toFixed2val (fsum (((monthTxs (applyTxOp s u now op) u c now).filter
        fun t => decide (t.type = Kind.expense)).map Transaction.amount)) ∧
      row.receita = toFixed2val (fsum (((monthTxs (applyTxOp s u now op) u c now).filter
        fun t => decide (t.type = Kind.gain)).map Transaction.amount)) := by
  cases op with
  | create tx =>
    have hc : tx.category = c := by
      simpa [affectedCat] using hop
    subst hc
    obtain ⟨_, _, _, _, row, hrow, hg, hr, _⟩ := create_spec s u tx now hwf
    exact ⟨row, hrow, hg, hr⟩
  | update i p =>
    rcases hf : s.transactions.find? (fun t => decide (t.id = i)) with _ | ex
    · simp only [affectedCat, hf] at hop
      exact absurd hop (by simp)
    · simp only [affectedCat, hf] at hop
      by_cases hu : ex.userId = u
      · rw [if_pos hu] at hop
        injection hop with hop
        subst hop
        obtain ⟨_, _, _, _, _, row, hrow, hg, hr, _⟩ := update_spec s u i p now hwf ex
          (List.mem_of_find?_eq_some hf) (by simpa using List.find?_some hf) hu
        exact ⟨row, hrow, hg, hr⟩
      · rw [if_neg hu] at hop
        exact absurd hop (by simp)
  | delete i =>
    rcases hf : s.transactions.find? (fun t => decide (t.id = i)) with _ | ex
    · simp only [affectedCat, hf] at hop
      exact absurd hop (by simp)
    · simp only [affectedCat, hf] at hop
      by_cases hu : ex.userId = u
      · rw [if_pos hu] at hop
        injection hop with hop
        subst hop
        obtain ⟨_, _, _, _, _, row, hrow, hg, hr, _⟩ := delete_spec s u i now hwf ex
          (List.mem_of_find?_eq_some hf) (by simpa using List.find?_some hf) hu
        exact ⟨row, hrow, hg, hr⟩
      · rw [if_neg hu] at hop
        exact absurd hop (by simp)

/-- Strict category order, used to show sorted three-row lists are
unique. -/
def catLT (a b : MonthlyData) : Prop := catOrder a.category < catOrder b.category

instance : IsAntisymm MonthlyData catLT :=
  ⟨fun _ _ h1 h2 => absurd h2 (Nat.lt_asymm h1)⟩

theorem sorted_cats_unique (l₁ l₂ : List MonthlyData) (hperm : List.Perm l₁ l₂)
    (hs₁ : List.Sorted catLe l₁) (hs₂ : List.Sorted catLe l₂)
    (hd₁ : l₁.Pairwise fun a b => a.category ≠ b.category) : l₁ = l₂ := by
  have hd₂ : l₂.Pairwise fun a b => a.category ≠ b.category :=
    (hperm.pairwise_iff fun h e => h e.symm).mp hd₁
  have hlt₁ : List.Sorted catLT l₁ := by
    refine (hs₁.and hd₁).imp ?_
    rintro a b ⟨hle, hne⟩
    exact lt_of_le_of_ne hle fun h => hne (catOrder_inj h)
  have hlt₂ : List.Sorted catLT l₂ := by
    refine (hs₂.and hd₂).imp ?_
    rintro a b ⟨hle, hne⟩
    exact lt_of_le_of_ne hle fun h => hne (catOrder_inj h)
  exact List.eq_of_perm_of_sorted hperm hlt₁ hlt₂

/-! ### Claims -/

/-- C7: `updateTransaction` and `deleteTransaction` fail with the
"Transaction not found" error whenever the target transaction id does
not exist or the stored transaction belongs to a different owner, and in
that error case the returned state is exactly the input state, so every
MonthlyTotals row and every transaction record is left unchanged. -/
theorem C7_notfound_state_unchanged (s : State) (u i : ℕ) (p : TxPatch) (now : Ym)
    (hwf : WF s)
    (h : (∀ t ∈ s.transactions, t.id ≠ i) ∨ (∃ t ∈ s.transactions, t.id = i ∧ t.userId ≠ u)) :
    updateTransaction s u i p now = (Except.error "Transaction not found", s) ∧
    deleteTransaction s u i now = (Except.error "Transaction not found", s) := by
  rcases hf : s.transactions.find? (fun t => decide (t.id = i)) with _ | ex
  · exact ⟨updateTransaction_fail_none s u i p now hf, deleteTransaction_fail_none s u i now hf⟩
  · have hexid : ex.id = i := by simpa using List.find?_some hf
    have hexmem := List.mem_of_find?_eq_some hf
    have hu : ex.userId ≠ u := by
      rcases h with h | ⟨t, ht, hti, htu⟩
      · exact absurd hexid (h ex hexmem)
      · have heq : t = ex := eq_of_txId_eq hwf.2.1 t ht ex hexmem (hti.trans hexid.symm)
        exact heq ▸ htu
    exact ⟨updateTransaction_fail_owner s u i p now ex hf hu,
      deleteTransaction_fail_owner s u i now ex hf hu⟩

theorem C7_witness :
    updateTransaction initState 0 0 {} ⟨10, 2026⟩ =
      (Except.error "Transaction not found", initState) ∧
    deleteTransaction initState 0 0 ⟨10, 2026⟩ =
      (Except.error "Transaction not found", initState) :=
  C7_notfound_state_unchanged initState 0 0 {} ⟨10, 2026⟩ (by decide) (Or.inl (by decide))

/-- C6: for every owner and every well-formed state (including the
empty one), `getCurrentMonthData` returns exactly 3 rows whose
categories are, in order, `plr_nacional`, `plr_internacional`,
`marca_roupas`; every returned row belongs to the owner and the current
month, is persisted in the resulting state, and is either a previously
stored row or a freshly created zero-valued row. -/
theorem C6_three_rows (s : State) (u : ℕ) (now : Ym) (hwf : WF s) :
    (getCurrentMonthData s u now).1.length = 3 ∧
    (getCurrentMonthData s u now).1.map MonthlyData.category =
      [Cat.plr_nacional, Cat.plr_internacional, Cat.marca_roupas] ∧
    ∀ r ∈ (getCurrentMonthData s u now).1,
      r.userId = u ∧ r.month = now.month ∧ r.year = now.year ∧
      r ∈ (getCurrentMonthData s u now).2.monthlyData ∧
      (r ∈ s.monthlyData ∨ (r.gastos = 0 ∧ r.receita = 0)) := by
  obtain ⟨rA, rB, rC, hrows, hcA, hcB, hcC, hfields, hdA, hdB, hdC, _, _, _, _, hmem, _⟩ :=
    gcm_spec s u now hwf
  refine ⟨by rw [hrows]; rfl, by rw [hrows]; simp [hcA, hcB, hcC], ?_⟩
  intro r hr
  rw [hrows] at hr
  obtain ⟨h1, h2, h3⟩ := hfields r hr
  refine ⟨h1, h2, h3, (hmem r).mpr (Or.inr hr), ?_⟩
  rcases List.mem_cons.mp hr with rfl | hr'
  · rcases hdA with hA | ⟨_, hg, hrc⟩
    · exact Or.inl ((rowFor_some_iff s u _ now hwf.2.2.2.2 r).mp hA).1
    · exact Or.inr ⟨hg, hrc⟩
  rcases List.mem_cons.mp hr' with rfl | hr''
  · rcases hdB with hB | ⟨_, hg, hrc⟩
    · exact Or.inl ((rowFor_some_iff s u _ now hwf.2.2.2.2 r).mp hB).1
    · exact Or.inr ⟨hg, hrc⟩
  rcases List.mem_cons.mp hr'' with rfl | hr'''
  · rcases hdC with hC | ⟨_, hg, hrc⟩
    · exact Or.inl ((rowFor_some_iff s u _ now hwf.2.2.2.2 r).mp hC).1
    · exact Or.inr ⟨hg, hrc⟩
  exact absurd hr''' (List.not_mem_nil r)

theorem C6_witness :
    (getCurrentMonthData initState 0 ⟨10, 2026⟩).1.length = 3 ∧
    (getCurrentMonthData initState 0 ⟨10, 2026⟩).1.map MonthlyData.category =
      [Cat.plr_nacional, Cat.plr_internacional, Cat.marca_roupas] ∧
    ∀ r ∈ (getCurrentMonthData initState 0 ⟨10, 2026⟩).1,
      r.userId = 0 ∧ r.month = 10 ∧ r.year = 2026 ∧
      r ∈ (getCurrentMonthData initState 0 ⟨10, 2026⟩).2.monthlyData ∧
      (r ∈ initState.monthlyData ∨ (r.gastos = 0 ∧ r.receita = 0)) :=
  C6_three_rows initState 0 ⟨10, 2026⟩ (by decide)

/-- C10: `getCurrentMonthData` is idempotent: a second call on the
state produced by a first call returns exactly the same three rows (in
particular the same category, month, year, expense and gain values) and
leaves the state unchanged. -/
theorem C10_idempotent (s : State) (u : ℕ) (now : Ym) (hwf : WF s) :
    getCurrentMonthData (getCurrentMonthData s u now).2 u now =
      ((getCurrentMonthData s u now).1, (getCurrentMonthData s u now).2) := by
  obtain ⟨rA, rB, rC, hrows, hcA, hcB, hcC, _, _, _, _, hwf', _, _, _, _, hcrperm⟩ :=
    gcm_spec s u now hwf
  have hlen : (currentRows (getCurrentMonthData s u now).2 u now).length = 3 := by
    rw [hcrperm.length_eq]
    rfl
  set s1 := (getCurrentMonthData s u now).2 with hs1
  have hbranch : getCurrentMonthData s1 u now =
      (List.insertionSort catLe (currentRows s1 u now), s1) := by
    simp only [getCurrentMonthData]
    rw [if_pos hlen]
  have hd3 : List.Pairwise (fun a b : MonthlyData => a.category ≠ b.category) [rA, rB, rC] := by
    refine List.pairwise_cons.mpr ⟨?_, List.pairwise_cons.mpr ⟨?_, List.pairwise_singleton _ _⟩⟩
    · intro b hb
      rcases List.mem_cons.mp hb with rfl | hb
      · rw [hcA, hcB]
        exact fun hh => Cat.noConfusion hh
      rcases List.mem_cons.mp hb with rfl | hb
      · rw [hcA, hcC]
        exact fun hh => Cat.noConfusion hh
      exact absurd hb (List.not_mem_nil b)
    · intro b hb
      rcases List.mem_cons.mp hb with rfl | hb
      · rw [hcB, hcC]
        exact fun hh => Cat.noConfusion hh
      exact absurd hb (List.not_mem_nil b)
  have hs3 : List.Sorted catLe [rA, rB, rC] := by
    refine List.pairwise_cons.mpr ⟨?_, List.pairwise_cons.mpr ⟨?_, List.pairwise_singleton _ _⟩⟩
    · intro b hb
      rcases List.mem_cons.mp hb with rfl | hb
      · unfold catLe
        rw [hcA, hcB]
        norm_num [catOrder]
      rcases List.mem_cons.mp hb with rfl | hb
      · unfold catLe
        rw [hcA, hcC]
        norm_num [catOrder]
      exact absurd hb (List.not_mem_nil b)
    · intro b hb
      rcases List.mem_cons.mp hb with rfl | hb
      · unfold catLe
        rw [hcB, hcC]
        norm_num [catOrder]
      exact absurd hb (List.not_mem_nil b)
  have hperm2 : List.Perm (List.insertionSort catLe (currentRows s1 u now)) [rA, rB, rC] :=
    (List.perm_insertionSort catLe _).trans hcrperm
  have hsorteq : List.insertionSort catLe (currentRows s1 u now) = [rA, rB, rC] :=
    sorted_cats_unique _ _ hperm2 (List.sorted_insertionSort catLe _) hs3
      ((hperm2.pairwise_iff fun h e => h e.symm).mpr hd3)
  rw [hbranch, hsorteq, hrows]

theorem C10_witness :
    getCurrentMonthData (getCurrentMonthData initState 0 ⟨10, 2026⟩).2 0 ⟨10, 2026⟩ =
      ((getCurrentMonthData initState 0 ⟨10, 2026⟩).1,
        (getCurrentMonthData initState 0 ⟨10, 2026⟩).2) :=
  C10_idempotent initState 0 ⟨10, 2026⟩ (by decide)

/-- C9: `getMonthlyHistory` returns at most `limit` records (default
limit 12), all belonging to the owner, sorted descending by
`(year, month)`; every owner record left out is at most as recent as
every record returned. -/
theorem C9_history_sorted (s : State) (u limit : ℕ) :
    getMonthlyHistoryD s u = getMonthlyHistory s u 12 ∧
    (getMonthlyHistory s u limit).length ≤ limit ∧
    (∀ h ∈ getMonthlyHistory s u limit, h.userId = u) ∧
    (getMonthlyHistory s u limit).Pairwise histLe ∧
    (∀ h1 ∈ getMonthlyHistory s u limit, ∀ h2 ∈ s.monthlyHistory, h2.userId = u →
      h2 ∉ getMonthlyHistory s u limit → histLe h1 h2) := by
  have hLdef : getMonthlyHistory s u limit =
      (List.insertionSort histLe (s.monthlyHistory.filter fun h => decide (h.userId = u))).take
        limit := rfl
  refine ⟨rfl, ?_, ?_, ?_, ?_⟩
  · rw [hLdef]
    exact List.length_take_le _ _
  · intro h hh
    rw [hLdef] at hh
    have h1 : h ∈ List.insertionSort histLe
        (s.monthlyHistory.filter fun h => decide (h.userId = u)) :=
      List.take_subset _ _ hh
    have h2 := (List.perm_insertionSort histLe _).mem_iff.mp h1
    simpa using (List.mem_filter.mp h2).2
  · rw [hLdef]
    exact List.Pairwise.sublist (List.take_sublist _ _) (List.sorted_insertionSort histLe _)
  · intro h1 hh1 h2 hmem2 hu2 hnotin
    rw [hLdef] at hh1 hnotin
    have hsorted : List.Pairwise histLe (List.insertionSort histLe
        (s.monthlyHistory.filter fun h => decide (h.userId = u))) :=
      List.sorted_insertionSort histLe _
    have h2L : h2 ∈ List.insertionSort histLe
        (s.monthlyHistory.filter fun h => decide (h.userId = u)) :=
      (List.perm_insertionSort histLe _).mem_iff.mpr (List.mem_filter.mpr ⟨hmem2, by simpa⟩)
    rw [← List.take_append_drop limit (List.insertionSort histLe
      (s.monthlyHistory.filter fun h => decide (h.userId = u)))] at hsorted h2L
    obtain ⟨_, _, hcross⟩ := List.pairwise_append.mp hsorted
    rcases List.mem_append.mp h2L with h2take | h2drop
    · exact absurd h2take hnotin
    · exact hcross h1 hh1 h2 h2drop

/-- The state used to exercise `getMonthlyHistory`: five archived
months for owner 0. -/
def histState : State :=
  ⟨[], [⟨1, 0, 1, 2026, 0, 0, 0, 0, 0, 0⟩, ⟨2, 0, 2, 2026, 0, 0, 0, 0, 0, 0⟩,
    ⟨3, 0, 3, 2026, 0, 0, 0, 0, 0, 0⟩, ⟨4, 0, 4, 2026, 0, 0, 0, 0, 0, 0⟩,
    ⟨5, 0, 5, 2026, 0, 0, 0, 0, 0, 0⟩], [], 6⟩

theorem C9_witness :
    ((getMonthlyHistory histState 0 2).length ≤ 2 ∧
      ∀ h ∈ getMonthlyHistory histState 0 2, h.userId = 0) ∧
    (getMonthlyHistory histState 0 2).map MonthlyHistory.month = [5, 4] := by
  have h := C9_history_sorted histState 0 2
  exact ⟨⟨h.2.1, h.2.2.1⟩, by decide⟩

/-- C1 as stated is violated by the code: `updateMonthlyData` (the
storage operation behind the POST totals route) completes and leaves a
MonthlyTotals row holding 5 while the owner has no transactions at all,
so the row differs from the (empty) transaction sum and MonthlyTotals
is independently editable. -/
theorem C1_counterexample :
    (updateMonthlyData initState 0 ⟨Cat.plr_nacional, 5, 0⟩ ⟨10, 2026⟩).2.monthlyData =
      [⟨0, 0, Cat.plr_nacional, 10, 2026, 5, 0⟩] ∧
    monthTxs (updateMonthlyData initState 0 ⟨Cat.plr_nacional, 5, 0⟩ ⟨10, 2026⟩).2 0
      Cat.plr_nacional ⟨10, 2026⟩ = [] ∧
    (5 : ℚ) ≠ 0 :=
  ⟨rfl, rfl, by norm_num⟩

/-- C1 (amended): after every successful transaction create, update or
delete completes, the MonthlyTotals row of the category handed to
`recalculateMonthlyData` equals the binary64 floating-point sums of the
owner's current-month transactions of that category by kind, formatted
with `toFixed(2)`; rows remain directly settable through
`updateMonthlyData`. -/
theorem C1_totals_after_tx (s : State) (u : ℕ) (now : Ym) (op : TxOp) (c : Cat)
    (hwf : WF s) (hop : affectedCat s u op = some c) :
    ∃ row, rowFor (applyTxOp s u now op) u c now = some row ∧
      row.gastos = toFixed2val (fsum (((monthTxs (applyTxOp s u now op) u c now).filter
        fun t => decide (t.type = Kind.expense)).map Transaction.amount)) ∧
      row.receita = toFixed2val (fsum (((monthTxs (applyTxOp s u now op) u c now).filter
        fun t => decide (t.type = Kind.gain)).map Transaction.amount)) :=
  txop_row_spec s u now op c hwf hop

theorem C1_totals_witness :
    ∃ row, rowFor (applyTxOp initState 0 ⟨10, 2026⟩
        (TxOp.create ⟨Cat.plr_nacional, Kind.expense, "d", 50, some ⟨10, 2026⟩⟩)) 0
        Cat.plr_nacional ⟨10, 2026⟩ = some row ∧
      row.gastos = toFixed2val (fsum (((monthTxs (applyTxOp initState 0 ⟨10, 2026⟩
        (TxOp.create ⟨Cat.plr_nacional, Kind.expense, "d", 50, some ⟨10, 2026⟩⟩)) 0
        Cat.plr_nacional ⟨10, 2026⟩).filter
        fun t => decide (t.type = Kind.expense)).map Transaction.amount)) ∧
      row.receita = toFixed2val (fsum (((monthTxs (applyTxOp initState 0 ⟨10, 2026⟩
        (TxOp.create ⟨Cat.plr_nacional, Kind.expense, "d", 50, some ⟨10, 2026⟩⟩)) 0
        Cat.plr_nacional ⟨10, 2026⟩).filter
        fun t => decide (t.type = Kind.gain)).map Transaction.amount)) :=
  C1_totals_after_tx initState 0 ⟨10, 2026⟩
    (TxOp.create ⟨Cat.plr_nacional, Kind.expense, "d", 50, some ⟨10, 2026⟩⟩)
    Cat.plr_nacional (by decide) rfl

/-- C2 as stated is violated by the code: creating a single transaction
with the decimal amount 0.615 stores the total 0.61, while the exact
decimal sum of the transaction amounts is 0.615: the recompute pipeline
(`Number`, `+`, `toFixed(2)`) runs in binary64 floating point, not exact
decimal arithmetic. -/
theorem C2_counterexample :
    ∃ r, rowFor (createTransaction initState 0
        ⟨Cat.plr_nacional, Kind.expense, "d", 123/200, some ⟨10, 2026⟩⟩ ⟨10, 2026⟩).2 0
        Cat.plr_nacional ⟨10, 2026⟩ = some r ∧
      r.gastos = 61/100 ∧
      ((monthTxs (createTransaction initState 0
        ⟨Cat.plr_nacional, Kind.expense, "d", 123/200, some ⟨10, 2026⟩⟩ ⟨10, 2026⟩).2 0
        Cat.plr_nacional ⟨10, 2026⟩).map Transaction.amount).sum = 123/200 ∧
      (61 : ℚ)/100 ≠ 123/200 := by
  have h1 : (createTransaction initState 0
      ⟨Cat.plr_nacional, Kind.expense, "d", 123/200, some ⟨10, 2026⟩⟩ ⟨10, 2026⟩).2 =
      { monthlyData := [⟨1, 0, Cat.plr_nacional, 10, 2026,
          toFixed2val (fsum [(123:ℚ)/200]), toFixed2val (fsum [])⟩],
        monthlyHistory := [],
        transactions := [⟨0, 0, Cat.plr_nacional, Kind.expense, "d", 123/200, ⟨10, 2026⟩⟩],
        nextId := 2 } := rfl
  rw [recompute_0615, recompute_nil] at h1
  refine ⟨⟨1, 0, Cat.plr_nacional, 10, 2026, 61/100, 0⟩, ?_, rfl, ?_, by norm_num⟩
  · rw [h1]
    rfl
  · rw [h1]
    have hm : monthTxs
        { monthlyData := [⟨1, 0, Cat.plr_nacional, 10, 2026, (61:ℚ)/100, 0⟩],
          monthlyHistory := [],
          transactions := [⟨0, 0, Cat.plr_nacional, Kind.expense, "d", 123/200, ⟨10, 2026⟩⟩],
          nextId := 2 } 0 Cat.plr_nacional ⟨10, 2026⟩ =
        [⟨0, 0, Cat.plr_nacional, Kind.expense, "d", 123/200, ⟨10, 2026⟩⟩] := rfl
    rw [hm]
    simp

/-- C2 (amended): for every sequence of transaction operations followed
by one more successful operation recomputing category `c`, the stored
totals equal the binary64 floating-point sums of the surviving
current-month transaction amounts of that category by kind, formatted
with `toFixed(2)` — the floating-point recompute, not the exact decimal
sum. -/
theorem C2_recompute_float (s : State) (u : ℕ) (now : Ym) (ops : List TxOp) (op : TxOp)
    (c : Cat) (hwf : WF s)
    (hop : affectedCat (runTxOps s u now ops) u op = some c) :
    ∃ row, rowFor (applyTxOp (runTxOps s u now ops) u now op) u c now = some row ∧
      row.gastos = toFixed2val (fsum (((monthTxs (applyTxOp (runTxOps s u now ops) u now op)
        u c now).filter fun t => decide (t.type = Kind.expense)).map Transaction.amount)) ∧
      row.receita = toFixed2val (fsum (((monthTxs (applyTxOp (runTxOps s u now ops) u now op)
        u c now).filter fun t => decide (t.type = Kind.gain)).map Transaction.amount)) :=
  txop_row_spec (runTxOps s u now ops) u now op c (runTxOps_WF s u now ops hwf) hop

theorem C2_recompute_witness :
    ∃ row, rowFor (applyTxOp (runTxOps initState 0 ⟨10, 2026⟩
        [TxOp.create ⟨Cat.plr_nacional, Kind.expense, "d", 50, some ⟨10, 2026⟩⟩]) 0 ⟨10, 2026⟩
        (TxOp.create ⟨Cat.plr_nacional, Kind.gain, "e", 10, some ⟨10, 2026⟩⟩)) 0
        Cat.plr_nacional ⟨10, 2026⟩ = some row ∧
      row.gastos = toFixed2val (fsum (((monthTxs (applyTxOp (runTxOps initState 0 ⟨10, 2026⟩
        [TxOp.create ⟨Cat.plr_nacional, Kind.expense, "d", 50, some ⟨10, 2026⟩⟩]) 0 ⟨10, 2026⟩
        (TxOp.create ⟨Cat.plr_nacional, Kind.gain, "e", 10, some ⟨10, 2026⟩⟩)) 0
        Cat.plr_nacional ⟨10, 2026⟩).filter
        fun t => decide (t.type = Kind.expense)).map Transaction.amount)) ∧
      row.receita = toFixed2val (fsum (((monthTxs (applyTxOp (runTxOps initState 0 ⟨10, 2026⟩
        [TxOp.create ⟨Cat.plr_nacional, Kind.expense, "d", 50, some ⟨10, 2026⟩⟩]) 0 ⟨10, 2026⟩
        (TxOp.create ⟨Cat.plr_nacional, Kind.gain, "e", 10, some ⟨10, 2026⟩⟩)) 0
        Cat.plr_nacional ⟨10, 2026⟩).filter
        fun t => decide (t.type = Kind.gain)).map Transaction.amount)) :=
  C2_recompute_float initState 0 ⟨10, 2026⟩
    [TxOp.create ⟨Cat.plr_nacional, Kind.expense, "d", 50, some ⟨10, 2026⟩⟩]
    (TxOp.create ⟨Cat.plr_nacional, Kind.gain, "e", 10, some ⟨10, 2026⟩⟩)
    Cat.plr_nacional (by decide) rfl

/-- C5: the claim matches the spec's stated intent, but the code
recomputes only the transaction's OLD category on update.  Moving the
only transaction (a 10.00 expense) from `plr_nacional` to
`plr_internacional` leaves the new category with no totals row at all
(while its transaction list is non-empty), and only the old category is
recomputed (to zero). -/
theorem C5_update_category_stale :
    (updateTransaction (createTransaction initState 0
        ⟨Cat.plr_nacional, Kind.expense, "d", 10, some ⟨10, 2026⟩⟩ ⟨10, 2026⟩).2 0 0
        { category := some Cat.plr_internacional } ⟨10, 2026⟩).2.transactions =
      [⟨0, 0, Cat.plr_internacional, Kind.expense, "d", 10, ⟨10, 2026⟩⟩] ∧
    rowFor (updateTransaction (createTransaction initState 0
        ⟨Cat.plr_nacional, Kind.expense, "d", 10, some ⟨10, 2026⟩⟩ ⟨10, 2026⟩).2 0 0
        { category := some Cat.plr_internacional } ⟨10, 2026⟩).2 0
      Cat.plr_internacional ⟨10, 2026⟩ = none ∧
    rowFor (updateTransaction (createTransaction initState 0
        ⟨Cat.plr_nacional, Kind.expense, "d", 10, some ⟨10, 2026⟩⟩ ⟨10, 2026⟩).2 0 0
        { category := some Cat.plr_internacional } ⟨10, 2026⟩).2 0
      Cat.plr_nacional ⟨10, 2026⟩ =
      some ⟨1, 0, Cat.plr_nacional, 10, 2026, 0, 0⟩ := by
  have h1 : (updateTransaction (createTransaction initState 0
      ⟨Cat.plr_nacional, Kind.expense, "d", 10, some ⟨10, 2026⟩⟩ ⟨10, 2026⟩).2 0 0
      { category := some Cat.plr_internacional } ⟨10, 2026⟩).2 =
      { monthlyData := [⟨1, 0, Cat.plr_nacional, 10, 2026,
          toFixed2val (fsum []), toFixed2val (fsum [])⟩],
        monthlyHistory := [],
        transactions := [⟨0, 0, Cat.plr_internacional, Kind.expense, "d", 10, ⟨10, 2026⟩⟩],
        nextId := 2 } := rfl
  rw [recompute_nil] at h1
  refine ⟨by rw [h1], by rw [h1]; rfl, by rw [h1]; rfl⟩

theorem monthTxs_def (s : State) (u : ℕ) (c : Cat) (now : Ym) :
    monthTxs s u c now = s.transactions.filter fun t =>
      decide (t.userId = u ∧ t.category = c ∧
        t.occurredAt.month = now.month ∧ t.occurredAt.year = now.year) := rfl

/-- C4 as stated is violated by the code: after one 50.00 expense,
closing the month twice produces two history rows whose
`plr_nacional` expense values are 50 and 0 — two distinct rows with
DIFFERENT values, and the second call was not rejected (it appended a
second row). -/
theorem C4_counterexample :
    (closeMonth (closeMonth (createTransaction initState 0
        ⟨Cat.plr_nacional, Kind.expense, "d", 50, some ⟨10, 2026⟩⟩ ⟨10, 2026⟩).2 0 ⟨10, 2026⟩)
      0 ⟨10, 2026⟩).monthlyHistory.map MonthlyHistory.plrNacionalGastos = [50, 0] ∧
    (50 : ℚ) ≠ 0 ∧
    (closeMonth (closeMonth (createTransaction initState 0
        ⟨Cat.plr_nacional, Kind.expense, "d", 50, some ⟨10, 2026⟩⟩ ⟨10, 2026⟩).2 0 ⟨10, 2026⟩)
      0 ⟨10, 2026⟩).monthlyHistory.length = 2 := by
  have h1 : (createTransaction initState 0
      ⟨Cat.plr_nacional, Kind.expense, "d", 50, some ⟨10, 2026⟩⟩ ⟨10, 2026⟩).2 =
      { monthlyData := [⟨1, 0, Cat.plr_nacional, 10, 2026,
          toFixed2val (fsum [(50:ℚ)]), toFixed2val (fsum [])⟩],
        monthlyHistory := [],
        transactions := [⟨0, 0, Cat.plr_nacional, Kind.expense, "d", 50, ⟨10, 2026⟩⟩],
        nextId := 2 } := rfl
  rw [recompute_50, recompute_nil] at h1
  rw [h1]
  exact ⟨rfl, by norm_num, rfl⟩

/-- C4 (amended): closing twice in the same month with no intervening
transaction changes produces two distinct history rows and the second
call is not rejected; the second row always records all-zero totals
(the rows read after the first close are freshly created zeros), so the
two rows' values coincide only when the first row's totals were all
zero. -/
theorem C4_close_twice (s : State) (u : ℕ) (now : Ym) (hwf : WF s) :
    ∃ k1 k2, (closeMonth (closeMonth s u now) u now).monthlyHistory =
        s.monthlyHistory ++ [k1, k2] ∧
      k1.id ≠ k2.id ∧
      k2.plrNacionalGastos = 0 ∧ k2.plrNacionalReceita = 0 ∧
      k2.plrInternacionalGastos = 0 ∧ k2.plrInternacionalReceita = 0 ∧
      k2.marcaRoupasGastos = 0 ∧ k2.marcaRoupasReceita = 0 := by
  obtain ⟨rA, rB, rC, k1, _, _, _, _, _, _, _, _, _, _, _, _, hh1, _, hcr1, hwf1, _, hhi1⟩ :=
    closeMonth_spec s u now hwf
  have hnone := rowFor_none_of_currentRows_nil (closeMonth s u now) u now hcr1
  obtain ⟨rA2, rB2, rC2, k2, hdA2, hdB2, hdC2, _, _, _, hpa2, hpr2, hia2, hir2, hma2, hmr2,
    hh2, _, _, _, hlo2, _⟩ := closeMonth_spec (closeMonth s u now) u now hwf1
  have hzA : rA2.gastos = 0 ∧ rA2.receita = 0 := by
    rcases hdA2 with h | ⟨_, hg, hr⟩
    · rw [hnone Cat.plr_nacional] at h
      exact Option.noConfusion h
    · exact ⟨hg, hr⟩
  have hzB : rB2.gastos = 0 ∧ rB2.receita = 0 := by
    rcases hdB2 with h | ⟨_, hg, hr⟩
    · rw [hnone Cat.plr_internacional] at h
      exact Option.noConfusion h
    · exact ⟨hg, hr⟩
  have hzC : rC2.gastos = 0 ∧ rC2.receita = 0 := by
    rcases hdC2 with h | ⟨_, hg, hr⟩
    · rw [hnone Cat.marca_roupas] at h
      exact Option.noConfusion h
    · exact ⟨hg, hr⟩
  refine ⟨k1, k2, ?_, ?_, ?_, ?_, ?_, ?_, ?_, ?_⟩
  · rw [hh2, hh1]
    simp
  · exact Nat.ne_of_lt (Nat.lt_of_lt_of_le hhi1 hlo2)
  · rw [hpa2, hzA.1]
  · rw [hpr2, hzA.2]
  · rw [hia2, hzB.1]
  · rw [hir2, hzB.2]
  · rw [hma2, hzC.1]
  · rw [hmr2, hzC.2]

theorem C4_close_twice_witness :
    ∃ k1 k2, (closeMonth (closeMonth initState 0 ⟨10, 2026⟩) 0 ⟨10, 2026⟩).monthlyHistory =
        initState.monthlyHistory ++ [k1, k2] ∧
      k1.id ≠ k2.id ∧
      k2.plrNacionalGastos = 0 ∧ k2.plrNacionalReceita = 0 ∧
      k2.plrInternacionalGastos = 0 ∧ k2.plrInternacionalReceita = 0 ∧
      k2.marcaRoupasGastos = 0 ∧ k2.marcaRoupasReceita = 0 :=
  C4_close_twice initState 0 ⟨10, 2026⟩ (by decide)

/-- C8: `closeMonth` leaves the transactions collection completely
unchanged; consequently the first transaction create after a close in
the same month recomputes that category's totals over all of the
month's transactions — the pre-close (already archived) ones together
with the new one. -/
theorem C8_close_preserves_transactions (s : State) (u : ℕ) (now : Ym)
    (tx : InsertTransaction) (hwf : WF s)
    (hocc : tx.occurredAt = none ∨ tx.occurredAt = some now) :
    (closeMonth s u now).transactions = s.transactions ∧
    ∃ row, monthTxs (createTransaction (closeMonth s u now) u tx now).2 u tx.category now =
        monthTxs s u tx.category now ++ [(createTransaction (closeMonth s u now) u tx now).1] ∧
      rowFor (createTransaction (closeMonth s u now) u tx now).2 u tx.category now = some row ∧
      row.gastos = toFixed2val (fsum (((monthTxs s u tx.category now ++
        [(createTransaction (closeMonth s u now) u tx now).1]).filter
        fun t => decide (t.type = Kind.expense)).map Transaction.amount)) ∧
      row.receita = toFixed2val (fsum (((monthTxs s u tx.category now ++
        [(createTransaction (closeMonth s u now) u tx now).1]).filter
        fun t => decide (t.type = Kind.gain)).map Transaction.amount)) := by
  obtain ⟨_, _, _, _, _, _, _, _, _, _, _, _, _, _, _, _, _, htx1, _, hwf1, _, _⟩ :=
    closeMonth_spec s u now hwf
  obtain ⟨_, htxs, _, _, row, hrow, hg, hr, _⟩ := create_spec (closeMonth s u now) u tx now hwf1
  have hocc' : ((createTransaction (closeMonth s u now) u tx now).1).occurredAt = now := by
    rw [createTransaction_newTx]
    rcases hocc with h | h <;> rw [h] <;> rfl
  have hfilter : List.filter (fun t => decide (t.userId = u ∧ t.category = tx.category ∧
      t.occurredAt.month = now.month ∧ t.occurredAt.year = now.year))
      [(createTransaction (closeMonth s u now) u tx now).1] =
      [(createTransaction (closeMonth s u now) u tx now).1] := by
    rw [List.filter_cons]
    rw [if_pos]
    · rfl
    · rw [hocc']
      rw [createTransaction_newTx]
      simp
  have hmts : monthTxs (createTransaction (closeMonth s u now) u tx now).2 u tx.category now =
      monthTxs s u tx.category now ++ [(createTransaction (closeMonth s u now) u tx now).1] := by
    rw [monthTxs_def, htxs, htx1, List.filter_append, hfilter, ← monthTxs_def]
  rw [hmts] at hg hr
  exact ⟨htx1, row, hmts, hrow, hg, hr⟩

theorem C8_close_witness :
    (closeMonth (createTransaction initState 0
        ⟨Cat.plr_nacional, Kind.expense, "d", 50, some ⟨10, 2026⟩⟩ ⟨10, 2026⟩).2 0
      ⟨10, 2026⟩).transactions = (createTransaction initState 0
        ⟨Cat.plr_nacional, Kind.expense, "d", 50, some ⟨10, 2026⟩⟩ ⟨10, 2026⟩).2.transactions ∧
    ∃ row, monthTxs (createTransaction (closeMonth (createTransaction initState 0
          ⟨Cat.plr_nacional, Kind.expense, "d", 50, some ⟨10, 2026⟩⟩ ⟨10, 2026⟩).2 0 ⟨10, 2026⟩)
        0 ⟨Cat.plr_nacional, Kind.gain, "e", 10, none⟩ ⟨10, 2026⟩).2 0 Cat.plr_nacional
        ⟨10, 2026⟩ =
        monthTxs (createTransaction initState 0
          ⟨Cat.plr_nacional, Kind.expense, "d", 50, some ⟨10, 2026⟩⟩ ⟨10, 2026⟩).2 0
          Cat.plr_nacional ⟨10, 2026⟩ ++
          [(createTransaction (closeMonth (createTransaction initState 0
            ⟨Cat.plr_nacional, Kind.expense, "d", 50, some ⟨10, 2026⟩⟩ ⟨10, 2026⟩).2 0
            ⟨10, 2026⟩) 0 ⟨Cat.plr_nacional, Kind.gain, "e", 10, none⟩ ⟨10, 2026⟩).1] ∧
      rowFor (createTransaction (closeMonth (createTransaction initState 0
          ⟨Cat.plr_nacional, Kind.expense, "d", 50, some ⟨10, 2026⟩⟩ ⟨10, 2026⟩).2 0 ⟨10, 2026⟩)
        0 ⟨Cat.plr_nacional, Kind.gain, "e", 10, none⟩ ⟨10, 2026⟩).2 0 Cat.plr_nacional
        ⟨10, 2026⟩ = some row ∧
      row.gastos = toFixed2val (fsum (((monthTxs (createTransaction initState 0
          ⟨Cat.plr_nacional, Kind.expense, "d", 50, some ⟨10, 2026⟩⟩ ⟨10, 2026⟩).2 0
          Cat.plr_nacional ⟨10, 2026⟩ ++
          [(createTransaction (closeMonth (createTransaction initState 0
            ⟨Cat.plr_nacional, Kind.expense, "d", 50, some ⟨10, 2026⟩⟩ ⟨10, 2026⟩).2 0
            ⟨10, 2026⟩) 0 ⟨Cat.plr_nacional, Kind.gain, "e", 10, none⟩ ⟨10, 2026⟩).1]).filter
        fun t => decide (t.type = Kind.expense)).map Transaction.amount)) ∧
      row.receita = toFixed2val (fsum (((monthTxs (createTransaction initState 0
          ⟨Cat.plr_nacional, Kind.expense, "d", 50, some ⟨10, 2026⟩⟩ ⟨10, 2026⟩).2 0
          Cat.plr_nacional ⟨10, 2026⟩ ++
          [(createTransaction (closeMonth (createTransaction initState 0
            ⟨Cat.plr_nacional, Kind.expense, "d", 50, some ⟨10, 2026⟩⟩ ⟨10, 2026⟩).2 0
            ⟨10, 2026⟩) 0 ⟨Cat.plr_nacional, Kind.gain, "e", 10, none⟩ ⟨10, 2026⟩).1]).filter
        fun t => decide (t.type = Kind.gain)).map Transaction.amount)) :=
  C8_close_preserves_transactions (createTransaction initState 0
      ⟨Cat.plr_nacional, Kind.expense, "d", 50, some ⟨10, 2026⟩⟩ ⟨10, 2026⟩).2 0 ⟨10, 2026⟩
    ⟨Cat.plr_nacional, Kind.gain, "e", 10, none⟩ (by decide) (Or.inl rfl)

/-- The expense/gain cell of a history row for one category and kind. -/
def histField (h : MonthlyHistory) (c : Cat) (k : Kind) : ℚ :=
  match c, k with
  | Cat.plr_nacional, Kind.expense => h.plrNacionalGastos
  | Cat.plr_nacional, Kind.gain => h.plrNacionalReceita
  | Cat.plr_internacional, Kind.expense => h.plrInternacionalGastos
  | Cat.plr_internacional, Kind.gain => h.plrInternacionalReceita
  | Cat.marca_roupas, Kind.expense => h.marcaRoupasGastos
  | Cat.marca_roupas, Kind.gain => h.marcaRoupasReceita

/-- C3 as stated is violated by the code: creating one transaction with
decimal amount 0.615 and closing the month yields a history row whose
expense cell holds 0.61, not the transaction's amount 0.615 — the
totals passed into the history row went through binary64 floating point
and `toFixed(2)`. -/
theorem C3_counterexample :
    (closeMonth (createTransaction initState 0
        ⟨Cat.plr_nacional, Kind.expense, "d", 123/200, some ⟨10, 2026⟩⟩ ⟨10, 2026⟩).2 0
      ⟨10, 2026⟩).monthlyHistory.map MonthlyHistory.plrNacionalGastos = [61/100] ∧
    (61 : ℚ)/100 ≠ 123/200 := by
  have h1 : (createTransaction initState 0
      ⟨Cat.plr_nacional, Kind.expense, "d", 123/200, some ⟨10, 2026⟩⟩ ⟨10, 2026⟩).2 =
      { monthlyData := [⟨1, 0, Cat.plr_nacional, 10, 2026,
          toFixed2val (fsum [(123:ℚ)/200]), toFixed2val (fsum [])⟩],
        monthlyHistory := [],
        transactions := [⟨0, 0, Cat.plr_nacional, Kind.expense, "d", 123/200, ⟨10, 2026⟩⟩],
        nextId := 2 } := rfl
  rw [recompute_0615, recompute_nil] at h1
  rw [h1]
  exact ⟨rfl, by norm_num⟩


theorem close_single_cat (s1 : State) (u : ℕ) (now : Ym) (hwf1 : WF s1)
    (row : MonthlyData) (c : Cat) (g r : ℚ)
    (hrow : rowFor s1 u c now = some row) (hg : row.gastos = g) (hr : row.receita = r)
    (hnone : ∀ c', c' ≠ c → rowFor s1 u c' now = none) :
    ∃ h, (closeMonth s1 u now).monthlyHistory = s1.monthlyHistory ++ [h] ∧
      histField h c Kind.expense = g ∧ histField h c Kind.gain = r ∧
      (∀ c' k', c' ≠ c → histField h c' k' = 0) ∧
      currentRows (closeMonth s1 u now) u now = [] ∧ WF (closeMonth s1 u now) := by
  obtain ⟨rA, rB, rC, h, hdA, hdB, hdC, _, _, _, hpa, hpr, hia, hir, hma, hmr,
    hh, _, hcr, hwfc, _, _⟩ := closeMonth_spec s1 u now hwf1
  have hcase : ∀ (c' : Cat) (rX : MonthlyData), (rowFor s1 u c' now = some rX ∨
      (rowFor s1 u c' now = none ∧ rX.gastos = 0 ∧ rX.receita = 0)) →
      (c' = c → rX = row) ∧ (c' ≠ c → rX.gastos = 0 ∧ rX.receita = 0) := by
    intro c' rX hd
    constructor
    · intro he
      subst he
      rcases hd with hd | ⟨hd, _, _⟩
      · rw [hrow] at hd
        injection hd with hd
        exact hd.symm
      · rw [hrow] at hd
        exact Option.noConfusion hd
    · intro hne
      rcases hd with hd | ⟨_, h1, h2⟩
      · rw [hnone c' hne] at hd
        exact Option.noConfusion hd
      · exact ⟨h1, h2⟩
  have hA := hcase Cat.plr_nacional rA hdA
  have hB := hcase Cat.plr_internacional rB hdB
  have hC := hcase Cat.marca_roupas rC hdC
  refine ⟨h, hh, ?_, ?_, ?_, hcr, hwfc⟩
  · cases c
    · show h.plrNacionalGastos = g
      rw [hpa, hA.1 rfl]
      exact hg
    · show h.plrInternacionalGastos = g
      rw [hia, hB.1 rfl]
      exact hg
    · show h.marcaRoupasGastos = g
      rw [hma, hC.1 rfl]
      exact hg
  · cases c
    · show h.plrNacionalReceita = r
      rw [hpr, hA.1 rfl]
      exact hr
    · show h.plrInternacionalReceita = r
      rw [hir, hB.1 rfl]
      exact hr
    · show h.marcaRoupasReceita = r
      rw [hmr, hC.1 rfl]
      exact hr
  · intro c' k' hne
    cases c' <;> cases k'
    · show h.plrNacionalGastos = 0
      rw [hpa]
      exact (hA.2 hne).1
    · show h.plrNacionalReceita = 0
      rw [hpr]
      exact (hA.2 hne).2
    · show h.plrInternacionalGastos = 0
      rw [hia]
      exact (hB.2 hne).1
    · show h.plrInternacionalReceita = 0
      rw [hir]
      exact (hB.2 hne).2
    · show h.marcaRoupasGastos = 0
      rw [hma]
      exact (hC.2 hne).1
    · show h.marcaRoupasReceita = 0
      rw [hmr]
      exact (hC.2 hne).2

/-- C3: the round-trip property holds for amounts with at most two decimal
digits below 10^8 (the shape schema decimal(10,2) allows): create one
transaction of amount j/100, close the month — the single history row holds
j/100 in the correct category/kind cell, zeros everywhere else, and the next
current-month read returns three zero rows. Such amounts survive the code's
binary64 summation and `toFixed(2)` exactly; for other decimal amounts the
claim fails, see the counterexample. -/
theorem C3_roundtrip (u : ℕ) (c : Cat) (k : Kind) (desc : String) (j : ℕ) (now : Ym)
    (hj : j ≤ 10000000000) :
    ∃ h, (closeMonth (createTransaction initState u ⟨c, k, desc, (j:ℚ)/100, some now⟩ now).2
        u now).monthlyHistory = [h] ∧
      histField h c k = (j:ℚ)/100 ∧
      (∀ c' k', ¬(c' = c ∧ k' = k) → histField h c' k' = 0) ∧
      (getCurrentMonthData (closeMonth (createTransaction initState u
          ⟨c, k, desc, (j:ℚ)/100, some now⟩ now).2 u now) u now).1.map
        (fun d => (d.gastos, d.receita)) = [(0, 0), (0, 0), (0, 0)] := by
  have hwf0 : WF initState := by decide
  obtain ⟨hwf1, htxs1, hh1, _, row, hrow, hg, hr, hmem⟩ :=
    create_spec initState u ⟨c, k, desc, (j:ℚ)/100, some now⟩ now hwf0
  set s1 := (createTransaction initState u
    (⟨c, k, desc, (j:ℚ)/100, some now⟩ : InsertTransaction) now).2 with hs1
  have hrow' : rowFor s1 u c now = some row := hrow
  have hg' : row.gastos = toFixed2val (fsum (((monthTxs s1 u c now).filter
      fun t => decide (t.type = Kind.expense)).map Transaction.amount)) := hg
  have hr' : row.receita = toFixed2val (fsum (((monthTxs s1 u c now).filter
      fun t => decide (t.type = Kind.gain)).map Transaction.amount)) := hr
  have hmem' : ∀ x, x ∈ s1.monthlyData ↔
      (x = row ∨ (x ∈ initState.monthlyData ∧
        mdKey x ≠ (u, c, now.month, now.year))) := hmem
  have htxs1' : s1.transactions = [⟨0, u, c, k, desc, (j:ℚ)/100, now⟩] := htxs1
  have hmts : monthTxs s1 u c now = [⟨0, u, c, k, desc, (j:ℚ)/100, now⟩] := by
    rw [monthTxs_def, htxs1']
    simp
  have hkey : mdKey row = (u, c, now.month, now.year) :=
    ((rowFor_some_iff s1 u c now hwf1.2.2.2.2 row).mp hrow').2
  have hnone : ∀ c', c' ≠ c → rowFor s1 u c' now = none := by
    intro c' hne
    apply (rowFor_none_iff s1 u c' now).mpr
    intro d hd
    rcases (hmem' d).mp hd with rfl | ⟨hd0, _⟩
    · rw [hkey]
      intro hk
      exact hne (congrArg (fun p => p.2.1) hk).symm
    · exact absurd hd0 (List.not_mem_nil d)
  cases k with
  | expense =>
    have hge : row.gastos = (j:ℚ)/100 := by
      rw [hg', hmts]
      exact fsum_single_money j hj
    have hre : row.receita = 0 := by
      rw [hr', hmts]
      exact recompute_nil
    obtain ⟨h, hh, hce, hcg, hz, hcr, hwfc⟩ :=
      close_single_cat s1 u now hwf1 row c ((j:ℚ)/100) 0 hrow' hge hre hnone
    refine ⟨h, ?_, hce, ?_, ?_⟩
    · rw [hh, hh1]
      rfl
    · intro c' k' hne
      by_cases hc' : c' = c
      · subst hc'
        cases k' with
        | expense => exact absurd ⟨rfl, rfl⟩ hne
        | gain => exact hcg
      · exact hz c' k' hc'
    · obtain ⟨rA', rB', rC', hrows', _, _, _, _, hdA', hdB', hdC', _, _, _, _, _, _⟩ :=
        gcm_spec (closeMonth s1 u now) u now hwfc
      have hz' : ∀ c'', rowFor (closeMonth s1 u now) u c'' now = none :=
        fun c'' => rowFor_none_of_currentRows_nil _ u now hcr c''
      rcases hdA' with hA' | ⟨_, hA1, hA2⟩
      · rw [hz' Cat.plr_nacional] at hA'
        exact Option.noConfusion hA'
      rcases hdB' with hB' | ⟨_, hB1, hB2⟩
      · rw [hz' Cat.plr_internacional] at hB'
        exact Option.noConfusion hB'
      rcases hdC' with hC' | ⟨_, hC1, hC2⟩
      · rw [hz' Cat.marca_roupas] at hC'
        exact Option.noConfusion hC'
      rw [hrows']
      simp [hA1, hA2, hB1, hB2, hC1, hC2]
  | gain =>
    have hge : row.gastos = 0 := by
      rw [hg', hmts]
      exact recompute_nil
    have hre : row.receita = (j:ℚ)/100 := by
      rw [hr', hmts]
      exact fsum_single_money j hj
    obtain ⟨h, hh, hce, hcg, hz, hcr, hwfc⟩ :=
      close_single_cat s1 u now hwf1 row c 0 ((j:ℚ)/100) hrow' hge hre hnone
    refine ⟨h, ?_, hcg, ?_, ?_⟩
    · rw [hh, hh1]
      rfl
    · intro c' k' hne
      by_cases hc' : c' = c
      · subst hc'
        cases k' with
        | expense => exact hce
        | gain => exact absurd ⟨rfl, rfl⟩ hne
      · exact hz c' k' hc'
    · obtain ⟨rA', rB', rC', hrows', _, _, _, _, hdA', hdB', hdC', _, _, _, _, _, _⟩ :=
        gcm_spec (closeMonth s1 u now) u now hwfc
      have hz' : ∀ c'', rowFor (closeMonth s1 u now) u c'' now = none :=
        fun c'' => rowFor_none_of_currentRows_nil _ u now hcr c''
      rcases hdA' with hA' | ⟨_, hA1, hA2⟩
      · rw [hz' Cat.plr_nacional] at hA'
        exact Option.noConfusion hA'
      rcases hdB' with hB' | ⟨_, hB1, hB2⟩
      · rw [hz' Cat.plr_internacional] at hB'
        exact Option.noConfusion hB'
      rcases hdC' with hC' | ⟨_, hC1, hC2⟩
      · rw [hz' Cat.marca_roupas] at hC'
        exact Option.noConfusion hC'
      rw [hrows']
      simp [hA1, hA2, hB1, hB2, hC1, hC2]

theorem C3_witness :
    ∃ h, (closeMonth (createTransaction initState 0
        ⟨Cat.plr_nacional, Kind.expense, "d", ((5000:ℕ):ℚ)/100, some ⟨10, 2026⟩⟩
        ⟨10, 2026⟩).2 0 ⟨10, 2026⟩).monthlyHistory = [h] ∧
      histField h Cat.plr_nacional Kind.expense = ((5000:ℕ):ℚ)/100 ∧
      (∀ c' k', ¬(c' = Cat.plr_nacional ∧ k' = Kind.expense) → histField h c' k' = 0) ∧
      (getCurrentMonthData (closeMonth (createTransaction initState 0
          ⟨Cat.plr_nacional, Kind.expense, "d", ((5000:ℕ):ℚ)/100, some ⟨10, 2026⟩⟩
          ⟨10, 2026⟩).2 0 ⟨10, 2026⟩) 0 ⟨10, 2026⟩).1.map
        (fun d => (d.gastos, d.receita)) = [(0, 0), (0, 0), (0, 0)] :=
  C3_roundtrip 0 Cat.plr_nacional Kind.expense "d" 5000 ⟨10, 2026⟩ (by decide)
